import Mathlib

deriving instance DecidableEq for Except

/-!
Task store and download pipeline of the `downloader` service

A shallow embedding of `internal/models`, `internal/config`, `internal/service`
and of `DownloadFile` and `CreateZipArchive` from `internal/utils`, followed by
theorems about it.

Conventions of the embedding

* Go `map[string]*Task` is a function `String → Option Task`; writing through a
  task pointer is an update of the map at the task's key.
* Go `map[string]struct{}` is a `Finset String`. The id slices of a
  `TaskResponse` are produced by ranging over such a map; Go leaves that order
  unspecified, so they are kept as the `Finset` of ids they enumerate.
* Go `error` is `Option String` (`none` is `nil`), the string being `err.Error()`.
* `uuid.New()`, `url.ParseRequestURI`, the HTTP client and the file system are
  not part of the repository: their results are inputs of the definitions. The
  network is threaded as an explicit world state `W`.
* The `context.Context` argument carries no data. The mutex and the logger do
  not change what an operation returns or stores; they appear as events in the
  traced operations (`CreateTaskTraced`, `AddURLsTraced`, `GetStatusTaskTraced`).
-/

namespace Downloader

/-! ## internal/models/models.go -/

/-- The five values of `models.TaskStatus`. -/
inductive TaskStatus where
  | StatusPending
  | StatusAddLinks
  | StatusProcessing
  | StatusCompleted
  | StatusFailed
  deriving DecidableEq, Repr

open TaskStatus

/-- The string constant behind each status. -/
def TaskStatus.toString : TaskStatus → String
  | StatusPending => "pending"
  | StatusAddLinks => "add_links"
  | StatusProcessing => "processing"
  | StatusCompleted => "completed"
  | StatusFailed => "failed"

/-- Go struct `models.Task`. -/
structure Task where
  ID : String
  Status : TaskStatus
  URLArchive : String := ""
  Errors : List String := []
  URLFiles : List String := []
  deriving DecidableEq, Repr

/-- Go struct `models.TaskResponse`; the two id slices are kept as sets. -/
structure TaskResponse where
  Task : Task
  ActiveTasks : Finset String
  CompletedTasks : Finset String
  deriving DecidableEq

/-- Go struct `models.InvalidURL`. -/
structure InvalidURL where
  URL : String
  Reason : String
  deriving DecidableEq, Repr

/-- Go struct `models.AddURLsResponse`. -/
structure AddURLsResponse where
  ValidURLs : List String := []
  InvalidURLs : List InvalidURL := []
  RejectedURLs : List String := []
  deriving DecidableEq, Repr

/-! ## internal/config/config.go -/

/-- Go struct `config.Conditions`. -/
structure Conditions where
  MaxCountCurrentTask : Int
  MaxFilesPerTask : Int
  AllowedExtensions : List String
  AllowedExtensionsMap : Finset String

/-- Go struct `config.Config`; the `Server` part is not used by the service. -/
structure Config where
  Conditions : Conditions

/-- The last lines of `MustLoad`: the allow-list map is filled from the
`AllowedExtensions` slice read from the environment. -/
def MustLoad (maxCountCurrentTask maxFilesPerTask : Int) (allowedExtensions : List String) :
    Config :=
  { Conditions :=
      { MaxCountCurrentTask := maxCountCurrentTask
        MaxFilesPerTask := maxFilesPerTask
        AllowedExtensions := allowedExtensions
        AllowedExtensionsMap := allowedExtensions.foldl (fun m ext => insert ext m) ∅ } }

/-! ## internal/service/service.go -/

/-- Go struct `service.Service`. -/
structure Service where
  tasks : String → Option Task
  activeTasks : Finset String
  completedTask : Finset String
  cfg : Config

/-- Go `NewService`: three empty maps. -/
def NewService (cfg : Config) : Service :=
  { tasks := fun _ => none, activeTasks := ∅, completedTask := ∅, cfg := cfg }

/-- Go method `Service.CreateTask`. `taskID` is the value of `uuid.New().String()`.
Returns the Go result pair and the store after the call. The error text stops
before the `%s` rendering of the active set. -/
def CreateTask (s : Service) (taskID : String) : Except String TaskResponse × Service :=
  if s.cfg.Conditions.MaxCountCurrentTask ≤ (s.activeTasks.card : Int) then
    (Except.error "server busy. Too many active tasks", s)
  else
    let task : Task := { ID := taskID, Status := StatusPending, URLFiles := [] }
    let s1 : Service :=
      { s with
        tasks := Function.update s.tasks taskID (some task)
        activeTasks := insert taskID s.activeTasks }
    (Except.ok { Task := task, ActiveTasks := s1.activeTasks, CompletedTasks := s1.completedTask },
      s1)

/-- Go method `Service.GetStatusTask`. Returns the Go result pair and the store after the call. -/
def GetStatusTask (s : Service) (taskID : String) : Except String TaskResponse × Service :=
  match s.tasks taskID with
  | none => (Except.error ("task with id " ++ taskID ++ " not found"), s)
  | some task =>
    if task.Status = StatusCompleted ∨ task.Status = StatusFailed then
      let s1 : Service := { s with activeTasks := s.activeTasks.erase taskID }
      let s2 : Service := { s1 with completedTask := insert taskID s1.completedTask }
      (Except.ok
        { Task :=
            { ID := taskID, Status := task.Status, URLArchive := task.URLArchive,
              Errors := task.Errors }
          ActiveTasks := s1.activeTasks
          CompletedTasks := s2.completedTask },
        s2)
    else
      (Except.ok
        { Task := { ID := taskID, Status := task.Status }
          ActiveTasks := s.activeTasks
          CompletedTasks := s.completedTask },
        s)

/-! ## internal/service/helpers.go -/

/-- Go `strings.Split` for a one-character separator, on the characters of the
string: the pieces between consecutive separators, always at least one piece. -/
def splitChars (sep : Char) : List Char → List (List Char)
  | [] => [[]]
  | c :: cs =>
    if c = sep then [] :: splitChars sep cs
    else
      match splitChars sep cs with
      | [] => [[c]]
      | p :: ps => (c :: p) :: ps

/-- Go `strings.Split(s, sep)` with `sep` a single character. Go splits the bytes of
the string; the separators used here are ASCII, which never occur inside a
multi-byte character, so the pieces are the same. -/
def Split (s : String) (sep : Char) : List String :=
  (splitChars sep s.data).map String.mk

/-- What `checkURL` asks of the outside: `url.ParseRequestURI` (the parsed
`Scheme` and `Host`, or `none` on a parse error) and `http.Client.Head` (on a
world state: `none` on a transport error, else the response's `Content-Type`
header as `Header.Get` returns it, `""` when absent; and the next world state). -/
structure Net (W : Type) where
  ParseRequestURI : String → Option (String × String)
  Head : W → String → Option String × W

/-- Go method `Service.checkURL`: the returned error (`none` is `nil`) and the world after
the call. -/
def checkURL {W : Type} (net : Net W) (cfg : Config) (w : W) (rawURL : String) :
    Option String × W :=
  match net.ParseRequestURI rawURL with
  | none => (some "invalid URL format", w)
  | some (scheme, host) =>
    if (scheme ≠ "http" ∧ scheme ≠ "https") ∨ host = "" then
      (some "invalid URL format", w)
    else
      match net.Head w rawURL with
      | (none, w1) => (some "URL not reachable", w1)
      | (some contentType, w1) =>
        if contentType = "" then (some "empty content type", w1)
        else
          let mime := (Split contentType ';').headD ""
          let parts := Split mime '/'
          if parts.length ≠ 2 then (some "invalid file extension", w1)
          else
            let ext := parts.getD 1 ""
            if ext ∈ cfg.Conditions.AllowedExtensionsMap then (none, w1)
            else (some "invalid file extension", w1)

/-! ## internal/utils/utils.go -/

/-- What `CreateZipArchive` asks of the file system: the error of
`os.Create(archivePath)` for a task id and the error of `addFileToZip` for a
file path (`none` is `nil`). -/
structure FS where
  Create : String → Option String
  addFileToZip : String → Option String

/-- The loop of `CreateZipArchive`: the first `addFileToZip` error, if any. -/
def zipFiles (fs : FS) : List String → Option String
  | [] => none
  | file :: rest =>
    match fs.addFileToZip file with
    | some err => some err
    | none => zipFiles fs rest

/-- Go `utils.CreateZipArchive`: the returned string and error. -/
def CreateZipArchive (fs : FS) (taskID : String) (files : List String) :
    String × Option String :=
  match fs.Create taskID with
  | some err => ("", some err)
  | none =>
    match zipFiles fs files with
    | some err => ("", some err)
    | none => ("http://localhost:8080/archives/" ++ taskID ++ ".zip", none)

/-- What `DownloadFile` asks of the outside: `http.Get` (its error text, or the
status code and the `Content-Type` header of the response as `Header.Get`
returns it), `time.Now().UnixNano()`, `filepath.Join(os.TempDir(), fileName)`,
and the errors of `os.Create` and of `io.Copy` for a file path. -/
structure DownloadEnv where
  Get : String → Except String (Int × String)
  UnixNano : Int
  JoinTempDir : String → String
  Create : String → Option String
  Copy : String → Option String

/-- Go `generateFileName`: `fmt.Sprintf("file-%d.%s", time.Now().UnixNano(), ext)`. -/
def generateFileName (unixNano : Int) (ext : String) : String :=
  "file-" ++ toString unixNano ++ "." ++ ext

/-- Go `utils.DownloadFile`. `none` is the run-time panic of the index expression
`strings.Split(mime, "/")[1]` on a slice with fewer than two elements;
otherwise the returned pair, `Except.ok filePath` or `Except.error` of
`err.Error()`. -/
def DownloadFile (env : DownloadEnv) (url : String) : Option (Except String String) :=
  match env.Get url with
  | Except.error err => some (Except.error ("failed to download file: " ++ err))
  | Except.ok (statusCode, contentType) =>
    if statusCode ≠ 200 then
      some (Except.error ("failed to download file: status code " ++ toString statusCode))
    else
      let mime := (Split contentType ';').headD ""
      match (Split mime '/').get? 1 with
      | none => none
      | some ext =>
        let filePath := env.JoinTempDir (generateFileName env.UnixNano ext)
        match env.Create filePath with
        | some err => some (Except.error ("failed to create file: " ++ err))
        | none =>
          match env.Copy filePath with
          | some err => some (Except.error ("failed to save file: " ++ err))
          | none => some (Except.ok filePath)

/-! ## internal/service: `AddURLs` and `taskProcessing` -/

/-- The `for i, url := range req.URLs` loop of `AddURLs`, on the URLs still to
visit. Result: world, task, response, and the `(id, urls)` handed to
`go s.taskProcessing(id, urls)` when the quota was reached. -/
def addLoop {W : Type} (net : Net W) (cfg : Config) :
    W → Task → AddURLsResponse → List String →
      W × Task × AddURLsResponse × Option (String × List String)
  | w, task, res, [] => (w, task, res, none)
  | w, task, res, url :: rest =>
    match checkURL net cfg w url with
    | (some reason, w1) =>
      addLoop net cfg w1 task
        { res with InvalidURLs := res.InvalidURLs ++ [{ URL := url, Reason := reason }] } rest
    | (none, w1) =>
      let task1 : Task := { task with URLFiles := task.URLFiles ++ [url] }
      let res1 : AddURLsResponse := { res with ValidURLs := res.ValidURLs ++ [url] }
      let task2 : Task :=
        if task1.URLFiles.length = 1 then { task1 with Status := StatusAddLinks } else task1
      if (task2.URLFiles.length : Int) = cfg.Conditions.MaxFilesPerTask then
        let task3 : Task := { task2 with Status := StatusProcessing }
        let res2 : AddURLsResponse := { res1 with RejectedURLs := res1.RejectedURLs ++ rest }
        (w1, task3, res2, some (task3.ID, task3.URLFiles))
      else
        addLoop net cfg w1 task2 res1 rest

/-- Everything one `AddURLs` call produces: the Go result pair, the store and
the world after the call, and the pipeline it launched, if any. -/
structure AddURLsResult (W : Type) where
  ret : Except String AddURLsResponse
  svc : Service
  world : W
  launched : Option (String × List String)

/-- Go method `Service.AddURLs`: the two guards, then the loop on an empty
response, then the write of the task back under its key. -/
def AddURLs {W : Type} (net : Net W) (s : Service) (w : W) (taskID : String)
    (urls : List String) : AddURLsResult W :=
  match s.tasks taskID with
  | none =>
    { ret := Except.error ("task with id " ++ taskID ++ " not found")
      svc := s, world := w, launched := none }
  | some task =>
    if ¬(task.Status = StatusAddLinks ∨ task.Status = StatusPending) then
      { ret := Except.error
          ("the maximum number of links has been added to the task. The task is "
            ++ task.Status.toString)
        svc := s, world := w, launched := none }
    else
      match addLoop net s.cfg w task {} urls with
      | (w1, task1, res, launched) =>
        { ret := Except.ok res
          svc := { s with tasks := Function.update s.tasks taskID (some task1) }
          world := w1
          launched := launched }

/-- The collector loop of `taskProcessing` over the worker results in the order
they are received: each is the URL of a worker and what `utils.DownloadFile`
returned for it (`Except.ok filePath` or `Except.error err`). Result:
`downloadedFiles` and `errors`. -/
def collect : List (String × Except String String) → List String × List String
  | [] => ([], [])
  | (url, r) :: rest =>
    let (files, errs) := collect rest
    match r with
    | Except.ok filePath => (filePath :: files, errs)
    | Except.error err =>
      (files, ("failed to download file " ++ url ++ ", error: " ++ err) :: errs)

/-- Lines 101-114 of `taskProcessing`: the archive is built only when at least
one file was downloaded, and its error joins `errors`. Result: `archivePath`
and `errors`. -/
def archiveStage (fs : FS) (taskID : String) (downloadedFiles errors : List String) :
    String × List String :=
  if 0 < downloadedFiles.length then
    match CreateZipArchive fs taskID downloadedFiles with
    | (path, some err) => (path, errors ++ [err])
    | (path, none) => (path, errors)
  else ("", errors)

/-- Lines 119-126 of `taskProcessing`: the fields written to the task under the
lock. -/
def writeResult (task : Task) (archivePath : String) (errors : List String) : Task :=
  if archivePath ≠ "" then
    { task with Errors := errors, URLArchive := archivePath, Status := StatusCompleted }
  else { task with Errors := errors, Status := StatusFailed }

/-- The worker goroutines of `taskProcessing` (lines 60-77), in the order their
results are received: each worker is its URL and the environment in which its
call `utils.DownloadFile(url)` runs. Result: every worker's URL with what
`DownloadFile` returned, or `none` when one of the calls panics (a goroutine
has no `recover`, so the process dies there). -/
def runWorkers : List (String × DownloadEnv) → Option (List (String × Except String String))
  | [] => some []
  | (url, env) :: rest =>
    match DownloadFile env url with
    | none => none
    | some r =>
      match runWorkers rest with
      | none => none
      | some results => some ((url, r) :: results)

/-- Go method `Service.taskProcessing`; `workers` are the goroutines started for
`urls`, in the order their results are received. `none` is a panic, after which
nothing is written: that of a worker's `DownloadFile`, or the nil-pointer
dereference of `s.tasks[taskID]` on an id that is not a key. -/
def taskProcessing (fs : FS) (s : Service) (taskID : String)
    (workers : List (String × DownloadEnv)) : Option Service :=
  match runWorkers workers with
  | none => none
  | some arrivals =>
    let out := archiveStage fs taskID (collect arrivals).1 (collect arrivals).2
    match s.tasks taskID with
    | none => none
    | some task =>
      some { s with
        tasks := Function.update s.tasks taskID (some (writeResult task out.1 out.2)) }

/-! ## The store together with its running pipelines -/

/-- The store and the pipelines launched by `AddURLs` that have not yet written
their result back. -/
structure System where
  svc : Service
  inflight : List (String × List String)

/-- The service right after `NewService`. -/
def System.init (cfg : Config) : System :=
  { svc := NewService cfg, inflight := [] }

/-- One operation on the store. `CreateTask` draws an id that is not yet a key
of the task map (uniqueness of `uuid.New()`); the write-back belongs to a
launched pipeline and runs one worker per URL it was launched with. -/
inductive Step : System → System → Prop where
  | createTask (sys : System) (taskID : String) (fresh : sys.svc.tasks taskID = none) :
      Step sys { svc := (CreateTask sys.svc taskID).2, inflight := sys.inflight }
  | addURLs {W : Type} (sys : System) (net : Net W) (w : W) (taskID : String)
      (urls : List String) :
      Step sys
        { svc := (AddURLs net sys.svc w taskID urls).svc
          inflight := sys.inflight ++ (AddURLs net sys.svc w taskID urls).launched.toList }
  | getStatusTask (sys : System) (taskID : String) :
      Step sys { svc := (GetStatusTask sys.svc taskID).2, inflight := sys.inflight }
  | writeBack (sys : System) (fs : FS) (taskID : String) (urls : List String)
      (workers : List (String × DownloadEnv)) (s1 : Service)
      (launched : (taskID, urls) ∈ sys.inflight)
      (results : (workers.map Prod.fst).Perm urls)
      (wrote : taskProcessing fs sys.svc taskID workers = some s1) :
      Step sys { svc := s1, inflight := sys.inflight.erase (taskID, urls) }

/-- The states the service can be in: those reached from `NewService cfg` by a
finite sequence of operations. -/
def Reachable (cfg : Config) (sys : System) : Prop :=
  Relation.ReflTransGen Step (System.init cfg) sys

/-! ## The lock and the I/O of the store operations -/

/-- What the store operations do besides reading and writing memory, in the order
the code does it: `s.mu.Lock()`, `s.mu.Unlock()`, `client.Head(rawURL)` inside
`checkURL` (with the deferred close of the response body), a call of
`s.log.Error`, `s.log.Warn` or `s.log.Info` (the handler of `internal/logger`
prints the line to `os.Stdout`), and `go s.taskProcessing(id, urls)`. -/
inductive Event where
  | Lock
  | Unlock
  | Head (url : String)
  | Log (msg : String)
  | Go (taskID : String) (urls : List String)
  deriving DecidableEq, Repr

/-- Network I/O: the HEAD request of the validator. -/
def Event.isNetworkIO : Event → Bool
  | Event.Head _ => true
  | _ => false

/-- File I/O: the write of a log line to the standard output file. -/
def Event.isFileIO : Event → Bool
  | Event.Log _ => true
  | _ => false

/-- Network or file I/O. -/
def Event.isIO (e : Event) : Bool :=
  e.isNetworkIO || e.isFileIO

/-- No event of the kind `io` lies between a `Lock` and the `Unlock` that follows
it; `held` tells whether the lock is held at the start of the list. -/
def quietWhileLocked (io : Event → Bool) : Bool → List Event → Bool
  | _, [] => true
  | _, Event.Lock :: rest => quietWhileLocked io true rest
  | _, Event.Unlock :: rest => quietWhileLocked io false rest
  | held, Event.Head url :: rest =>
    !(held && io (Event.Head url)) && quietWhileLocked io held rest
  | held, Event.Log msg :: rest =>
    !(held && io (Event.Log msg)) && quietWhileLocked io held rest
  | held, Event.Go taskID urls :: rest =>
    !(held && io (Event.Go taskID urls)) && quietWhileLocked io held rest

/-- Go method `Service.CreateTask` once more, now with the events of the call:
`s.mu.Lock()` on line 34, the deferred `s.mu.Unlock()` at the return, and
`s.log.Error` on line 38. -/
def CreateTaskTraced (s : Service) (taskID : String) :
    (Except String TaskResponse × Service) × List Event :=
  if s.cfg.Conditions.MaxCountCurrentTask ≤ (s.activeTasks.card : Int) then
    ((Except.error "server busy. Too many active tasks", s),
      [Event.Lock, Event.Log "Server busy. Too many active tasks", Event.Unlock])
  else
    let task : Task := { ID := taskID, Status := StatusPending, URLFiles := [] }
    let s1 : Service :=
      { s with
        tasks := Function.update s.tasks taskID (some task)
        activeTasks := insert taskID s.activeTasks }
    ((Except.ok
        { Task := task, ActiveTasks := s1.activeTasks, CompletedTasks := s1.completedTask },
      s1),
      [Event.Lock, Event.Unlock])

/-- Go method `Service.GetStatusTask` once more, now with the events of the call:
`s.mu.Lock()` on line 131, the deferred `s.mu.Unlock()` at the return, and
`s.log.Error` on line 136. -/
def GetStatusTaskTraced (s : Service) (taskID : String) :
    (Except String TaskResponse × Service) × List Event :=
  match s.tasks taskID with
  | none =>
    ((Except.error ("task with id " ++ taskID ++ " not found"), s),
      [Event.Lock, Event.Log "task not found", Event.Unlock])
  | some task =>
    if task.Status = StatusCompleted ∨ task.Status = StatusFailed then
      let s1 : Service := { s with activeTasks := s.activeTasks.erase taskID }
      let s2 : Service := { s1 with completedTask := insert taskID s1.completedTask }
      ((Except.ok
          { Task :=
              { ID := taskID, Status := task.Status, URLArchive := task.URLArchive,
                Errors := task.Errors }
            ActiveTasks := s1.activeTasks
            CompletedTasks := s2.completedTask },
        s2),
        [Event.Lock, Event.Unlock])
    else
      ((Except.ok
          { Task := { ID := taskID, Status := task.Status }
            ActiveTasks := s.activeTasks
            CompletedTasks := s.completedTask },
        s),
        [Event.Lock, Event.Unlock])

/-- Go method `Service.checkURL` once more, now with the events of the call: the
HEAD request of line 27, made once the format check has passed. -/
def checkURLTraced {W : Type} (net : Net W) (cfg : Config) (w : W) (rawURL : String) :
    (Option String × W) × List Event :=
  match net.ParseRequestURI rawURL with
  | none => ((some "invalid URL format", w), [])
  | some (scheme, host) =>
    if (scheme ≠ "http" ∧ scheme ≠ "https") ∨ host = "" then
      ((some "invalid URL format", w), [])
    else
      match net.Head w rawURL with
      | (none, w1) => ((some "URL not reachable", w1), [Event.Head rawURL])
      | (some contentType, w1) =>
        if contentType = "" then ((some "empty content type", w1), [Event.Head rawURL])
        else
          let mime := (Split contentType ';').headD ""
          let parts := Split mime '/'
          if parts.length ≠ 2 then ((some "invalid file extension", w1), [Event.Head rawURL])
          else
            let ext := parts.getD 1 ""
            if ext ∈ cfg.Conditions.AllowedExtensionsMap then ((none, w1), [Event.Head rawURL])
            else ((some "invalid file extension", w1), [Event.Head rawURL])

/-- The loop of `AddURLs` once more, now with the events from the first
iteration to the return: the probes of `checkURL`, `s.log.Warn` on line 93,
`s.log.Info` on lines 107 and 111, `s.mu.Unlock()` and the launch on lines
119-120 when the quota is reached, and otherwise `s.mu.Unlock()` on line 126
after the last URL. -/
def addLoopTraced {W : Type} (net : Net W) (cfg : Config) :
    W → Task → AddURLsResponse → List String →
      (W × Task × AddURLsResponse × Option (String × List String)) × List Event
  | w, task, res, [] => ((w, task, res, none), [Event.Unlock])
  | w, task, res, url :: rest =>
    match checkURLTraced net cfg w url with
    | ((some reason, w1), probe) =>
      let r := addLoopTraced net cfg w1 task
        { res with InvalidURLs := res.InvalidURLs ++ [{ URL := url, Reason := reason }] } rest
      (r.1, probe ++ Event.Log "URL is failed" :: r.2)
    | ((none, w1), probe) =>
      let task1 : Task := { task with URLFiles := task.URLFiles ++ [url] }
      let res1 : AddURLsResponse := { res with ValidURLs := res.ValidURLs ++ [url] }
      let task2 : Task :=
        if task1.URLFiles.length = 1 then { task1 with Status := StatusAddLinks } else task1
      let first : List Event :=
        if task1.URLFiles.length = 1 then [Event.Log "task status updated to add_links"] else []
      if (task2.URLFiles.length : Int) = cfg.Conditions.MaxFilesPerTask then
        let task3 : Task := { task2 with Status := StatusProcessing }
        let res2 : AddURLsResponse := { res1 with RejectedURLs := res1.RejectedURLs ++ rest }
        ((w1, task3, res2, some (task3.ID, task3.URLFiles)),
          probe ++ first ++
            [Event.Log "the maximum number of links has been added to the task",
              Event.Unlock, Event.Go task3.ID task3.URLFiles])
      else
        let r := addLoopTraced net cfg w1 task2 res1 rest
        (r.1, probe ++ first ++ r.2)

/-- Go method `Service.AddURLs` once more, now with the events of the call:
`s.mu.Lock()` on line 69, then either a guard with its log line and
`s.mu.Unlock()` (lines 73-75, 80-84) or the loop. -/
def AddURLsTraced {W : Type} (net : Net W) (s : Service) (w : W) (taskID : String)
    (urls : List String) : AddURLsResult W × List Event :=
  match s.tasks taskID with
  | none =>
    ({ ret := Except.error ("task with id " ++ taskID ++ " not found")
       svc := s, world := w, launched := none },
      [Event.Lock, Event.Log "task not found", Event.Unlock])
  | some task =>
    if ¬(task.Status = StatusAddLinks ∨ task.Status = StatusPending) then
      ({ ret := Except.error
            ("the maximum number of links has been added to the task. The task is "
              ++ task.Status.toString)
         svc := s, world := w, launched := none },
        [Event.Lock, Event.Log "the maximum number of links has been added to the task",
          Event.Unlock])
    else
      match addLoopTraced net s.cfg w task {} urls with
      | ((w1, task1, res, launched), events) =>
        ({ ret := Except.ok res
           svc := { s with tasks := Function.update s.tasks taskID (some task1) }
           world := w1
           launched := launched },
          Event.Lock :: events)

/-! ## Auxiliary definitions used by the statements -/

/-- Lines 101-108 of `AddURLs` on one validated URL: the append to `URLFiles`
and the status update on the first URL. -/
def acceptURL (task : Task) (url : String) : Task :=
  if (task.URLFiles ++ [url]).length = 1 then
    { task with URLFiles := task.URLFiles ++ [url], Status := StatusAddLinks }
  else { task with URLFiles := task.URLFiles ++ [url] }

/-- The bookkeeping facts that hold in every state of the service. -/
structure Inv (cfg : Config) (sys : System) : Prop where
  cfg_eq : sys.svc.cfg = cfg
  ids : ∀ k t, sys.svc.tasks k = some t → t.ID = k
  nodup : (sys.inflight.map Prod.fst).Nodup
  proc : ∀ p ∈ sys.inflight, ∃ t, sys.svc.tasks p.1 = some t ∧ t.Status = StatusProcessing
  arch : ∀ k t, sys.svc.tasks k = some t → t.Status ≠ StatusCompleted → t.URLArchive = ""
  disj : ∀ k, k ∈ sys.svc.activeTasks → k ∉ sys.svc.completedTask
  akeys : ∀ k, k ∈ sys.svc.activeTasks → ∃ t, sys.svc.tasks k = some t
  ckeys : ∀ k, k ∈ sys.svc.completedTask → ∃ t, sys.svc.tasks k = some t
  quota : 1 ≤ cfg.Conditions.MaxFilesPerTask → ∀ k t, sys.svc.tasks k = some t →
    ((t.URLFiles.length : Nat) : Int) ≤ cfg.Conditions.MaxFilesPerTask ∧
    ((t.Status = StatusPending ∨ t.Status = StatusAddLinks) →
      ((t.URLFiles.length : Nat) : Int) < cfg.Conditions.MaxFilesPerTask)

/-- The order of the state machine: the four moves
`pending → add_links → processing → completed | failed`. -/
inductive StatusEdge : TaskStatus → TaskStatus → Prop where
  | toAddLinks : StatusEdge StatusPending StatusAddLinks
  | toProcessing : StatusEdge StatusAddLinks StatusProcessing
  | toCompleted : StatusEdge StatusProcessing StatusCompleted
  | toFailed : StatusEdge StatusProcessing StatusFailed

/-- Running `checkURL` on a list of URLs one after the other, every one of them
passing: the world after the last probe, or `none` when one is rejected. -/
def validateAll {W : Type} (net : Net W) (cfg : Config) : W → List String → Option W
  | w, [] => some w
  | w, url :: rest =>
    match checkURL net cfg w url with
    | (none, w1) => validateAll net cfg w1 rest
    | (some _, _) => none

/-! ## A worked run of the service -/

/-- The configuration of `config.go`'s defaults: three active tasks, three files
per task, extensions `jpeg` and `pdf`. -/
def demoCfg : Config := MustLoad 3 3 ["jpeg", "pdf"]

/-- A network whose world state is the list of URLs probed so far: every URL
parses, `bad` is served as `image/png`, everything else as a PDF. -/
def demoNet : Net (List String) :=
  { ParseRequestURI := fun _ => some ("https", "files.example")
    Head := fun w u =>
      (some (if u = "bad" then "image/png" else "application/pdf; charset=binary"), w ++ [u]) }

/-- A file system on which archives can always be written. -/
def demoFS : FS := { Create := fun _ => none, addFileToZip := fun _ => none }

/-- The fresh service with one task `t1` created. -/
def demoSys1 : System :=
  { svc := (CreateTask (System.init demoCfg).svc "t1").2, inflight := (System.init demoCfg).inflight }

/-- Task `t1` after five URLs were submitted at once. -/
def demoSys2 : System :=
  { svc := (AddURLs demoNet demoSys1.svc [] "t1" ["u1", "u2", "u3", "u4", "u5"]).svc
    inflight := demoSys1.inflight ++
      (AddURLs demoNet demoSys1.svc [] "t1" ["u1", "u2", "u3", "u4", "u5"]).launched.toList }

/-- A download that succeeds at clock reading `unixNano`: status 200, a PDF, a
writable temporary directory `/tmp`. -/
def pdfEnv (unixNano : Int) : DownloadEnv :=
  { Get := fun _ => Except.ok (200, "application/pdf")
    UnixNano := unixNano
    JoinTempDir := fun fileName => "/tmp/" ++ fileName
    Create := fun _ => none
    Copy := fun _ => none }

/-- A download answered with status 404. -/
def goneEnv : DownloadEnv :=
  { Get := fun _ => Except.ok (404, "text/html")
    UnixNano := 2
    JoinTempDir := fun fileName => "/tmp/" ++ fileName
    Create := fun _ => none
    Copy := fun _ => none }

/-- The three workers of `t1`: the second download fails. -/
def demoWorkers : List (String × DownloadEnv) :=
  [("u1", pdfEnv 1), ("u2", goneEnv), ("u3", pdfEnv 3)]

/-- The store after the pipeline of `t1` wrote its result. -/
def demoSvc3 : Service :=
  { demoSys2.svc with
    tasks := Function.update demoSys2.svc.tasks "t1"
      (some
        { ID := "t1", Status := StatusCompleted
          URLArchive := "http://localhost:8080/archives/t1.zip"
          Errors :=
            ["failed to download file u2, error: failed to download file: status code 404"]
          URLFiles := ["u1", "u2", "u3"] }) }

/-- The system after the pipeline of `t1` wrote its result. -/
def demoSys3 : System :=
  { svc := demoSvc3, inflight := demoSys2.inflight.erase ("t1", ["u1", "u2", "u3"]) }

/-- The system after a status read of the finished task `t1`. -/
def demoSys4 : System :=
  { svc := (GetStatusTask demoSys3.svc "t1").2, inflight := demoSys3.inflight }

/-- A configuration with a per-task quota of two files. -/
def pairCfg : Config := MustLoad 3 2 ["jpeg", "pdf"]

/-- The store with quota two and one pending task `t1`. -/
def pairSvc : Service := (CreateTask (NewService pairCfg) "t1").2

/-- A configuration with a per-task quota of zero files. -/
def zeroCfg : Config := MustLoad 3 0 ["jpeg", "pdf"]

/-- With quota zero: one task `t1` created. -/
def zeroSys1 : System :=
  { svc := (CreateTask (System.init zeroCfg).svc "t1").2
    inflight := (System.init zeroCfg).inflight }

/-- With quota zero: one URL submitted to `t1`. -/
def zeroSys2 : System :=
  { svc := (AddURLs demoNet zeroSys1.svc [] "t1" ["u1"]).svc
    inflight := zeroSys1.inflight ++ (AddURLs demoNet zeroSys1.svc [] "t1" ["u1"]).launched.toList }

/-- A server that answers every GET with status 200 and no `Content-Type`
header, on a file system where every write succeeds. -/
def bareEnv : DownloadEnv :=
  { Get := fun _ => Except.ok (200, "")
    UnixNano := 1754900000000000000
    JoinTempDir := fun fileName => "/tmp/" ++ fileName
    Create := fun _ => none
    Copy := fun _ => none }

/-- A configuration that admits no active task. -/
def busyCfg : Config := MustLoad 0 3 ["jpeg", "pdf"]

/-- A file system on which an archive can be created but no file added to it. -/
def brokenFS : FS :=
  { Create := fun _ => none, addFileToZip := fun _ => some "permission denied" }

/-! ## Unfolding the loop of `AddURLs` -/

theorem acceptURL_URLFiles (task : Task) (url : String) :
    (acceptURL task url).URLFiles = task.URLFiles ++ [url] := by
  unfold acceptURL; split <;> rfl

theorem acceptURL_ID (task : Task) (url : String) : (acceptURL task url).ID = task.ID := by
  unfold acceptURL; split <;> rfl

theorem acceptURL_URLArchive (task : Task) (url : String) :
    (acceptURL task url).URLArchive = task.URLArchive := by
  unfold acceptURL; split <;> rfl

theorem acceptURL_Status (task : Task) (url : String) :
    (acceptURL task url).Status = task.Status ∨ (acceptURL task url).Status = StatusAddLinks := by
  unfold acceptURL; split
  · exact Or.inr rfl
  · exact Or.inl rfl

theorem addLoop_nil {W : Type} (net : Net W) (cfg : Config) (w : W) (task : Task)
    (res : AddURLsResponse) : addLoop net cfg w task res [] = (w, task, res, none) := by
  rw [addLoop]

theorem addLoop_invalid {W : Type} (net : Net W) (cfg : Config) (w w1 : W) (task : Task)
    (res : AddURLsResponse) (url reason : String) (rest : List String)
    (h : checkURL net cfg w url = (some reason, w1)) :
    addLoop net cfg w task res (url :: rest) =
      addLoop net cfg w1 task
        { res with InvalidURLs := res.InvalidURLs ++ [{ URL := url, Reason := reason }] } rest := by
  rw [addLoop, h]

theorem addLoop_quota {W : Type} (net : Net W) (cfg : Config) (w w1 : W) (task : Task)
    (res : AddURLsResponse) (url : String) (rest : List String)
    (h : checkURL net cfg w url = (none, w1))
    (hq : ((task.URLFiles.length + 1 : Nat) : Int) = cfg.Conditions.MaxFilesPerTask) :
    addLoop net cfg w task res (url :: rest) =
      (w1, { acceptURL task url with Status := StatusProcessing },
        { res with ValidURLs := res.ValidURLs ++ [url], RejectedURLs := res.RejectedURLs ++ rest },
        some (task.ID, task.URLFiles ++ [url])) := by
  rw [addLoop, h]
  simp only [acceptURL]
  split <;> simp_all

theorem addLoop_continue {W : Type} (net : Net W) (cfg : Config) (w w1 : W) (task : Task)
    (res : AddURLsResponse) (url : String) (rest : List String)
    (h : checkURL net cfg w url = (none, w1))
    (hq : ((task.URLFiles.length + 1 : Nat) : Int) ≠ cfg.Conditions.MaxFilesPerTask) :
    addLoop net cfg w task res (url :: rest) =
      addLoop net cfg w1 (acceptURL task url) { res with ValidURLs := res.ValidURLs ++ [url] }
        rest := by
  rw [addLoop, h]
  simp only [acceptURL]
  split <;> simp_all

/-- Every input URL ends in exactly one of the three result lists. -/
theorem addLoop_lengths {W : Type} (net : Net W) (cfg : Config) (urls : List String) :
    ∀ (w : W) (task : Task) (res : AddURLsResponse),
      (addLoop net cfg w task res urls).2.2.1.ValidURLs.length
          + (addLoop net cfg w task res urls).2.2.1.InvalidURLs.length
          + (addLoop net cfg w task res urls).2.2.1.RejectedURLs.length
        = res.ValidURLs.length + res.InvalidURLs.length + res.RejectedURLs.length
          + urls.length := by
  induction urls with
  | nil => intro w task res; simp [addLoop_nil]
  | cons url rest ih =>
    intro w task res
    rcases h : checkURL net cfg w url with ⟨_ | reason, w1⟩
    · by_cases hq : ((task.URLFiles.length + 1 : Nat) : Int) = cfg.Conditions.MaxFilesPerTask
      · rw [addLoop_quota net cfg w w1 task res url rest h hq]
        simp only [List.length_append, List.length_cons, List.length_nil]
        omega
      · rw [addLoop_continue net cfg w w1 task res url rest h hq, ih]
        simp only [List.length_append, List.length_cons, List.length_nil]
        omega
    · rw [addLoop_invalid net cfg w w1 task res url reason rest h, ih]
      simp only [List.length_append, List.length_cons, List.length_nil]
      omega

/-- What the loop of `AddURLs` can do to the task it works on. -/
theorem addLoop_task {W : Type} (net : Net W) (cfg : Config) (urls : List String) :
    ∀ (w : W) (task : Task) (res : AddURLsResponse),
      (addLoop net cfg w task res urls).2.1.ID = task.ID ∧
      (addLoop net cfg w task res urls).2.1.URLArchive = task.URLArchive ∧
      ((addLoop net cfg w task res urls).2.2.2 = none →
        ((addLoop net cfg w task res urls).2.1.Status = task.Status ∨
          (addLoop net cfg w task res urls).2.1.Status = StatusAddLinks) ∧
        (((task.URLFiles.length : Nat) : Int) < cfg.Conditions.MaxFilesPerTask →
          (((addLoop net cfg w task res urls).2.1.URLFiles.length : Nat) : Int)
            < cfg.Conditions.MaxFilesPerTask)) ∧
      (∀ p, (addLoop net cfg w task res urls).2.2.2 = some p →
        (addLoop net cfg w task res urls).2.1.Status = StatusProcessing ∧
        p = (task.ID, (addLoop net cfg w task res urls).2.1.URLFiles) ∧
        (((addLoop net cfg w task res urls).2.1.URLFiles.length : Nat) : Int)
          = cfg.Conditions.MaxFilesPerTask) := by
  induction urls with
  | nil =>
    intro w task res
    simp [addLoop_nil]
  | cons url rest ih =>
    intro w task res
    rcases h : checkURL net cfg w url with ⟨_ | reason, w1⟩
    · by_cases hq : ((task.URLFiles.length + 1 : Nat) : Int) = cfg.Conditions.MaxFilesPerTask
      · rw [addLoop_quota net cfg w w1 task res url rest h hq]
        simp [acceptURL_ID, acceptURL_URLArchive, acceptURL_URLFiles]
        exact_mod_cast hq
      · rw [addLoop_continue net cfg w w1 task res url rest h hq]
        obtain ⟨h1, h2, h3, h4⟩ := ih w1 (acceptURL task url)
          { res with ValidURLs := res.ValidURLs ++ [url] }
        refine ⟨by rw [h1, acceptURL_ID], by rw [h2, acceptURL_URLArchive], ?_, ?_⟩
        · intro hn
          obtain ⟨h5, h6⟩ := h3 hn
          refine ⟨?_, ?_⟩
          · rcases h5 with h5 | h5
            · rw [h5]; exact acceptURL_Status task url
            · exact Or.inr h5
          · intro hlt
            apply h6
            rw [acceptURL_URLFiles]
            simp only [List.length_append, List.length_cons, List.length_nil]
            push_cast at hq ⊢
            omega
        · intro p hp
          obtain ⟨h5, h6, h7⟩ := h4 p hp
          exact ⟨h5, by rw [h6, acceptURL_ID], h7⟩
    · rw [addLoop_invalid net cfg w w1 task res url reason rest h]
      exact ih w1 task _

/-! ## The shape of `AddURLs` and `taskProcessing` -/

theorem AddURLs_of_missing {W : Type} (net : Net W) (s : Service) (w : W) (taskID : String)
    (urls : List String) (hT : s.tasks taskID = none) :
    (AddURLs net s w taskID urls).svc = s ∧ (AddURLs net s w taskID urls).launched = none ∧
      (AddURLs net s w taskID urls).world = w := by
  unfold AddURLs; simp [hT]

theorem AddURLs_of_closed {W : Type} (net : Net W) (s : Service) (w : W) (taskID : String)
    (urls : List String) (task : Task) (hT : s.tasks taskID = some task)
    (hS : ¬(task.Status = StatusAddLinks ∨ task.Status = StatusPending)) :
    (AddURLs net s w taskID urls).svc = s ∧ (AddURLs net s w taskID urls).launched = none ∧
      (AddURLs net s w taskID urls).world = w := by
  unfold AddURLs; simp only [hT, hS, not_false_eq_true, if_true, and_self]

theorem AddURLs_of_open {W : Type} (net : Net W) (s : Service) (w : W) (taskID : String)
    (urls : List String) (task : Task) (hT : s.tasks taskID = some task)
    (hS : task.Status = StatusAddLinks ∨ task.Status = StatusPending) :
    AddURLs net s w taskID urls =
      { ret := Except.ok (addLoop net s.cfg w task {} urls).2.2.1
        svc := { s with
          tasks := Function.update s.tasks taskID (some (addLoop net s.cfg w task {} urls).2.1) }
        world := (addLoop net s.cfg w task {} urls).1
        launched := (addLoop net s.cfg w task {} urls).2.2.2 } := by
  unfold AddURLs; simp only [hT, hS, not_true_eq_false, if_false]

theorem runWorkers_eq_none_iff (workers : List (String × DownloadEnv)) :
    runWorkers workers = none ↔ ∃ wk ∈ workers, DownloadFile wk.2 wk.1 = none := by
  induction workers with
  | nil => simp [runWorkers]
  | cons wk rest ih =>
    obtain ⟨url, env⟩ := wk
    rw [runWorkers]
    cases hd : DownloadFile env url with
    | none => simp [hd]
    | some r =>
      cases hr : runWorkers rest with
      | none =>
        simp only [true_iff]
        obtain ⟨wk, hm, hw⟩ := ih.mp hr
        exact ⟨wk, List.mem_cons_of_mem _ hm, hw⟩
      | some results =>
        simp only [reduceCtorEq, false_iff]
        rintro ⟨wk, hm, hw⟩
        rcases List.mem_cons.mp hm with h | h
        · rw [h] at hw; simp only at hw; rw [hd] at hw; cases hw
        · rw [ih.mpr ⟨wk, h, hw⟩] at hr; cases hr

theorem runWorkers_ok_iff (workers : List (String × DownloadEnv)) :
    ∀ (arrivals : List (String × Except String String)), runWorkers workers = some arrivals →
      ∀ path, (∃ a ∈ arrivals, a.2 = Except.ok path) ↔
        ∃ wk ∈ workers, DownloadFile wk.2 wk.1 = some (Except.ok path) := by
  induction workers with
  | nil =>
    intro arrivals h path
    rw [runWorkers] at h
    cases h
    simp
  | cons wk rest ih =>
    obtain ⟨url, env⟩ := wk
    intro arrivals h path
    rw [runWorkers] at h
    cases hd : DownloadFile env url with
    | none => rw [hd] at h; cases h
    | some r =>
      rw [hd] at h
      cases hr : runWorkers rest with
      | none => rw [hr] at h; cases h
      | some results =>
        rw [hr] at h
        cases h
        simp only [List.mem_cons, exists_eq_or_imp, hd, Option.some.injEq]
        rw [ih results hr path]

theorem taskProcessing_some (fs : FS) (s : Service) (taskID : String)
    (workers : List (String × DownloadEnv)) (s1 : Service)
    (h : taskProcessing fs s taskID workers = some s1) :
    ∃ arrivals, runWorkers workers = some arrivals := by
  unfold taskProcessing at h
  cases hr : runWorkers workers with
  | none => rw [hr] at h; cases h
  | some arrivals => exact ⟨arrivals, rfl⟩

theorem taskProcessing_eq (fs : FS) (s : Service) (taskID : String)
    (workers : List (String × DownloadEnv))
    (arrivals : List (String × Except String String)) (task : Task)
    (hW : runWorkers workers = some arrivals)
    (hT : s.tasks taskID = some task) :
    taskProcessing fs s taskID workers =
      some { s with
        tasks := Function.update s.tasks taskID
          (some (writeResult task
            (archiveStage fs taskID (collect arrivals).1 (collect arrivals).2).1
            (archiveStage fs taskID (collect arrivals).1 (collect arrivals).2).2)) } := by
  unfold taskProcessing; simp only [hW, hT]

theorem writeResult_fields (task : Task) (archivePath : String) (errors : List String) :
    (writeResult task archivePath errors).ID = task.ID ∧
    (writeResult task archivePath errors).URLFiles = task.URLFiles ∧
    (writeResult task archivePath errors).Errors = errors ∧
    ((archivePath ≠ "" ∧ (writeResult task archivePath errors).Status = StatusCompleted ∧
        (writeResult task archivePath errors).URLArchive = archivePath) ∨
      (archivePath = "" ∧ (writeResult task archivePath errors).Status = StatusFailed ∧
        (writeResult task archivePath errors).URLArchive = task.URLArchive)) := by
  unfold writeResult
  by_cases h : archivePath = "" <;> simp [h]

/-! ## The bookkeeping facts are kept by every operation -/

theorem Inv_init (cfg : Config) : Inv cfg (System.init cfg) := by
  constructor <;> simp [System.init, NewService]

theorem Inv_createTask (cfg : Config) (sys : System) (taskID : String)
    (fresh : sys.svc.tasks taskID = none) (inv : Inv cfg sys) :
    Inv cfg { svc := (CreateTask sys.svc taskID).2, inflight := sys.inflight } := by
  unfold CreateTask
  split
  · exact inv
  · refine ⟨inv.cfg_eq, ?_, inv.nodup, ?_, ?_, ?_, ?_, ?_, ?_⟩
    · intro k t h
      simp only [Function.update_apply] at h
      split at h
      · cases h; simp_all
      · exact inv.ids k t h
    · intro p hp
      obtain ⟨t, ht, hs⟩ := inv.proc p hp
      refine ⟨t, ?_, hs⟩
      simp only [Function.update_apply]
      rw [if_neg]
      · exact ht
      · intro he; rw [he, fresh] at ht; cases ht
    · intro k t h hs
      simp only [Function.update_apply] at h
      split at h
      · cases h; rfl
      · exact inv.arch k t h hs
    · intro k hk
      simp only [Finset.mem_insert] at hk
      rcases hk with hk | hk
      · intro hc
        obtain ⟨t, ht⟩ := inv.ckeys k hc
        rw [hk, fresh] at ht; cases ht
      · exact inv.disj k hk
    · intro k hk
      simp only [Finset.mem_insert] at hk
      simp only [Function.update_apply]
      split
      · exact ⟨_, rfl⟩
      · rcases hk with hk | hk
        · contradiction
        · exact inv.akeys k hk
    · intro k hk
      simp only [Function.update_apply]
      split
      · exact ⟨_, rfl⟩
      · exact inv.ckeys k hk
    · intro hq k t h
      simp only [Function.update_apply] at h
      split at h
      · cases h
        simp only [List.length_nil]
        constructor
        · exact_mod_cast (by omega : (0:Int) ≤ cfg.Conditions.MaxFilesPerTask)
        · intro _; exact_mod_cast (by omega : (0:Int) < cfg.Conditions.MaxFilesPerTask)
      · exact inv.quota hq k t h

theorem Inv_getStatusTask (cfg : Config) (sys : System) (taskID : String) (inv : Inv cfg sys) :
    Inv cfg { svc := (GetStatusTask sys.svc taskID).2, inflight := sys.inflight } := by
  unfold GetStatusTask
  split
  · exact inv
  · rename_i task hT
    split
    · refine ⟨inv.cfg_eq, inv.ids, inv.nodup, inv.proc, inv.arch, ?_, ?_, ?_, inv.quota⟩
      · intro k hk
        simp only [Finset.mem_erase] at hk
        simp only [Finset.mem_insert, not_or]
        exact ⟨hk.1, inv.disj k hk.2⟩
      · intro k hk
        simp only [Finset.mem_erase] at hk
        exact inv.akeys k hk.2
      · intro k hk
        simp only [Finset.mem_insert] at hk
        rcases hk with hk | hk
        · exact ⟨task, by rw [hk]; exact hT⟩
        · exact inv.ckeys k hk
    · exact inv

theorem not_inflight_of_open (cfg : Config) (sys : System) (inv : Inv cfg sys) (taskID : String)
    (task : Task) (hT : sys.svc.tasks taskID = some task)
    (hS : task.Status = StatusAddLinks ∨ task.Status = StatusPending) :
    taskID ∉ sys.inflight.map Prod.fst := by
  intro hm
  obtain ⟨p, hp, hpe⟩ := List.mem_map.mp hm
  obtain ⟨t, ht, hs⟩ := inv.proc p hp
  rw [hpe, hT] at ht
  cases ht
  rcases hS with h | h <;> rw [h] at hs <;> cases hs

theorem Inv_addURLs {W : Type} (cfg : Config) (sys : System) (net : Net W) (w : W)
    (taskID : String) (urls : List String) (inv : Inv cfg sys) :
    Inv cfg
      { svc := (AddURLs net sys.svc w taskID urls).svc
        inflight := sys.inflight ++ (AddURLs net sys.svc w taskID urls).launched.toList } := by
  cases hT : sys.svc.tasks taskID with
  | none =>
    obtain ⟨h1, h2, _⟩ := AddURLs_of_missing net sys.svc w taskID urls hT
    rw [h1, h2]; simpa using inv
  | some task =>
    by_cases hS : task.Status = StatusAddLinks ∨ task.Status = StatusPending
    swap
    · obtain ⟨h1, h2, _⟩ := AddURLs_of_closed net sys.svc w taskID urls task hT hS
      rw [h1, h2]; simpa using inv
    rw [AddURLs_of_open net sys.svc w taskID urls task hT hS]
    obtain ⟨a1, a2, a3, a4⟩ := addLoop_task net sys.svc.cfg urls w task {}
    have hnin := not_inflight_of_open cfg sys inv taskID task hT hS
    have hid : task.ID = taskID := inv.ids taskID task hT
    have hne : task.Status ≠ StatusCompleted := by
      rcases hS with h | h <;> rw [h] <;> decide
    have hcfg := inv.cfg_eq
    generalize addLoop net sys.svc.cfg w task {} urls = r at a1 a2 a3 a4
    obtain ⟨w1, t1, res, launched⟩ := r
    simp only at a1 a2 a3 a4 ⊢
    refine ⟨inv.cfg_eq, ?_, ?_, ?_, ?_, inv.disj, ?_, ?_, ?_⟩
    · intro k t h
      simp only [Function.update_apply] at h
      split at h
      · cases h; rw [a1, hid]; simp_all
      · exact inv.ids k t h
    · cases launched with
      | none => simpa using inv.nodup
      | some p =>
        obtain ⟨_, hp, _⟩ := a4 p rfl
        simp only [Option.toList, List.map_append, List.map_cons, List.map_nil]
        rw [List.nodup_append]
        refine ⟨inv.nodup, List.nodup_singleton _, ?_⟩
        intro x hx hx2
        simp only [List.mem_singleton] at hx2
        rw [hx2, hp, hid] at hx
        exact hnin hx
    · intro p hp
      rw [List.mem_append] at hp
      rcases hp with hp | hp
      · obtain ⟨t, ht, hs⟩ := inv.proc p hp
        refine ⟨t, ?_, hs⟩
        simp only [Function.update_apply]
        rw [if_neg]
        · exact ht
        · intro he
          exact hnin (he ▸ List.mem_map_of_mem Prod.fst hp)
      · cases launched with
        | none => simp at hp
        | some q =>
          simp only [Option.toList, List.mem_singleton] at hp
          obtain ⟨hs, hq, _⟩ := a4 q rfl
          refine ⟨t1, ?_, hs⟩
          rw [hp, hq, hid]
          simp
    · intro k t h hs
      simp only [Function.update_apply] at h
      split at h
      · cases h; rw [a2]; exact inv.arch taskID task hT hne
      · exact inv.arch k t h hs
    · intro k hk
      simp only [Function.update_apply]
      split
      · exact ⟨_, rfl⟩
      · exact inv.akeys k hk
    · intro k hk
      simp only [Function.update_apply]
      split
      · exact ⟨_, rfl⟩
      · exact inv.ckeys k hk
    · intro hq k t h
      simp only [Function.update_apply] at h
      split at h
      · cases h
        have hlt := (inv.quota hq taskID task hT).2 hS.symm
        rw [← hcfg] at hlt ⊢
        cases launched with
        | none =>
          obtain ⟨_, h6⟩ := a3 rfl
          have := h6 hlt
          exact ⟨le_of_lt this, fun _ => this⟩
        | some p =>
          obtain ⟨hs, _, hlen⟩ := a4 p rfl
          refine ⟨le_of_eq hlen, ?_⟩
          intro hh
          rcases hh with hh | hh <;> rw [hs] at hh <;> cases hh
      · exact inv.quota hq k t h

theorem fst_ne_of_mem_erase (l : List (String × List String)) (a p : String × List String)
    (hnd : (l.map Prod.fst).Nodup) (ha : a ∈ l) (hp : p ∈ l.erase a) : p.1 ≠ a.1 := by
  have hl : l.Nodup := List.Nodup.of_map Prod.fst hnd
  have hpe := (List.Nodup.mem_erase_iff hl).mp hp
  intro he
  exact hpe.1 (List.inj_on_of_nodup_map hnd hpe.2 ha he)

theorem Inv_writeBack (cfg : Config) (sys : System) (fs : FS) (taskID : String)
    (urls : List String) (workers : List (String × DownloadEnv)) (s1 : Service)
    (launched : (taskID, urls) ∈ sys.inflight)
    (wrote : taskProcessing fs sys.svc taskID workers = some s1) (inv : Inv cfg sys) :
    Inv cfg { svc := s1, inflight := sys.inflight.erase (taskID, urls) } := by
  obtain ⟨task, hT, hP⟩ := inv.proc _ launched
  simp only at hT
  obtain ⟨arrivals, hW⟩ := taskProcessing_some fs sys.svc taskID workers s1 wrote
  rw [taskProcessing_eq fs sys.svc taskID workers arrivals task hW hT] at wrote
  cases wrote
  obtain ⟨f1, f2, _, f4⟩ := writeResult_fields task
    (archiveStage fs taskID (collect arrivals).1 (collect arrivals).2).1
    (archiveStage fs taskID (collect arrivals).1 (collect arrivals).2).2
  generalize writeResult task
    (archiveStage fs taskID (collect arrivals).1 (collect arrivals).2).1
    (archiveStage fs taskID (collect arrivals).1 (collect arrivals).2).2 = t2 at f1 f2 f4
  generalize (archiveStage fs taskID (collect arrivals).1 (collect arrivals).2).1 = path at f4
  refine ⟨inv.cfg_eq, ?_, ?_, ?_, ?_, inv.disj, ?_, ?_, ?_⟩
  · intro k t h
    simp only [Function.update_apply] at h
    split at h
    · cases h; rw [f1, inv.ids taskID task hT]; simp_all
    · exact inv.ids k t h
  · exact (List.erase_sublist _ _).map Prod.fst |>.nodup inv.nodup
  · intro p hp
    have hne := fst_ne_of_mem_erase sys.inflight (taskID, urls) p inv.nodup launched hp
    obtain ⟨t, ht, hs⟩ := inv.proc p (List.mem_of_mem_erase hp)
    refine ⟨t, ?_, hs⟩
    simp only [Function.update_apply]
    rw [if_neg hne]
    exact ht
  · intro k t h hs
    simp only [Function.update_apply] at h
    split at h
    · cases h
      rcases f4 with ⟨_, h1, _⟩ | ⟨_, _, h3⟩
      · exact absurd h1 hs
      · rw [h3]
        exact inv.arch taskID task hT (by rw [hP]; decide)
    · exact inv.arch k t h hs
  · intro k hk
    simp only [Function.update_apply]
    split
    · exact ⟨_, rfl⟩
    · exact inv.akeys k hk
  · intro k hk
    simp only [Function.update_apply]
    split
    · exact ⟨_, rfl⟩
    · exact inv.ckeys k hk
  · intro hq k t h
    simp only [Function.update_apply] at h
    split at h
    · cases h
      rw [f2]
      refine ⟨(inv.quota hq taskID task hT).1, ?_⟩
      intro hh
      rcases f4 with ⟨_, h1, _⟩ | ⟨_, h1, _⟩ <;> rcases hh with hh | hh <;>
        rw [h1] at hh <;> cases hh
    · exact inv.quota hq k t h

theorem Inv_step (cfg : Config) (sys sys1 : System) (inv : Inv cfg sys) (step : Step sys sys1) :
    Inv cfg sys1 := by
  cases step with
  | createTask _ taskID fresh => exact Inv_createTask cfg sys taskID fresh inv
  | addURLs _ net w taskID urls => exact Inv_addURLs cfg sys net w taskID urls inv
  | getStatusTask _ taskID => exact Inv_getStatusTask cfg sys taskID inv
  | writeBack _ fs taskID urls workers s1 launched results wrote =>
    exact Inv_writeBack cfg sys fs taskID urls workers s1 launched wrote inv

theorem Inv_of_reachable (cfg : Config) (sys : System) (h : Reachable cfg sys) : Inv cfg sys := by
  induction h with
  | refl => exact Inv_init cfg
  | tail _ step ih => exact Inv_step cfg _ _ ih step

/-! ## The worked run is a run of the service -/

theorem demoSys1_reachable : Reachable demoCfg demoSys1 :=
  Relation.ReflTransGen.tail Relation.ReflTransGen.refl
    (Step.createTask (System.init demoCfg) "t1" rfl)

theorem demoSys2_reachable : Reachable demoCfg demoSys2 :=
  Relation.ReflTransGen.tail demoSys1_reachable
    (Step.addURLs demoSys1 demoNet [] "t1" ["u1", "u2", "u3", "u4", "u5"])

theorem demoSys2_task : demoSys2.svc.tasks "t1" =
    some { ID := "t1", Status := StatusProcessing, URLFiles := ["u1", "u2", "u3"] } := by
  decide

theorem demoWorkers_results : runWorkers demoWorkers =
    some [("u1", Except.ok "/tmp/file-1.pdf"),
      ("u2", Except.error "failed to download file: status code 404"),
      ("u3", Except.ok "/tmp/file-3.pdf")] := by
  decide

theorem demoSys2_wrote : taskProcessing demoFS demoSys2.svc "t1" demoWorkers = some demoSvc3 := by
  rfl

theorem demoSys2_step : Step demoSys2 demoSys3 :=
  Step.writeBack demoSys2 demoFS "t1" ["u1", "u2", "u3"] demoWorkers demoSvc3
    (by decide) (List.Perm.refl _) demoSys2_wrote

theorem demoSys2_archive_failure :
    ((taskProcessing brokenFS demoSys2.svc "t1" demoWorkers).bind (fun s1 => s1.tasks "t1")).map
        (fun t1 => (t1.Status, t1.URLArchive, t1.Errors)) =
      some (StatusFailed, "",
        ["failed to download file u2, error: failed to download file: status code 404",
          "permission denied"]) := by
  decide

/-! ## The archive stage -/

theorem archiveURL_ne_empty (taskID : String) :
    "http://localhost:8080/archives/" ++ taskID ++ ".zip" ≠ "" := by
  intro h
  have := congrArg String.length h
  simp only [String.length_append] at this
  have h4 : ".zip".length = 4 := by decide
  rw [h4] at this
  have h0 : "".length = 0 := by decide
  omega

theorem CreateZipArchive_path (fs : FS) (taskID : String) (files : List String) :
    ((CreateZipArchive fs taskID files).2 = none → (CreateZipArchive fs taskID files).1 ≠ "") ∧
      ((CreateZipArchive fs taskID files).2 ≠ none → (CreateZipArchive fs taskID files).1 = "") := by
  unfold CreateZipArchive
  cases fs.Create taskID with
  | some err => simp
  | none =>
    cases zipFiles fs files with
    | some err => simp
    | none => simpa using archiveURL_ne_empty taskID

theorem archiveStage_path (fs : FS) (taskID : String) (files errors : List String) :
    (archiveStage fs taskID files errors).1 ≠ "" ↔
      (files ≠ [] ∧ (CreateZipArchive fs taskID files).2 = none) := by
  unfold archiveStage
  obtain ⟨h1, h2⟩ := CreateZipArchive_path fs taskID files
  cases files with
  | nil => simp
  | cons f rest =>
    simp only [List.length_cons, Nat.zero_lt_succ, if_true, ne_eq, not_false_eq_true,
      true_and, reduceCtorEq]
    rcases hc : CreateZipArchive fs taskID (f :: rest) with ⟨path, _ | err⟩
    · rw [hc] at h1
      simpa using h1 rfl
    · rw [hc] at h2
      simpa using h2 (by simp)

theorem collect_files_ne_nil (arrivals : List (String × Except String String)) :
    (collect arrivals).1 ≠ [] ↔ ∃ a ∈ arrivals, ∃ path, a.2 = Except.ok path := by
  induction arrivals with
  | nil => simp [collect]
  | cons a rest ih =>
    obtain ⟨url, r⟩ := a
    cases r with
    | ok filePath => simp [collect]
    | error err =>
      simp only [collect, List.mem_cons, exists_eq_or_imp, reduceCtorEq, exists_false, false_or]
      exact ih

/-! ## Filling the quota in one call -/

theorem acceptURL_Errors (task : Task) (url : String) :
    (acceptURL task url).Errors = task.Errors := by
  unfold acceptURL; split <;> rfl

theorem addLoop_fill {W : Type} (net : Net W) (cfg : Config) (rest : List String)
    (pre : List String) :
    ∀ (w w2 : W) (task : Task) (res : AddURLsResponse), pre ≠ [] →
      validateAll net cfg w pre = some w2 →
      ((task.URLFiles.length + pre.length : Nat) : Int) = cfg.Conditions.MaxFilesPerTask →
      addLoop net cfg w task res (pre ++ rest) =
        (w2,
          { ID := task.ID, Status := StatusProcessing, URLArchive := task.URLArchive,
            Errors := task.Errors, URLFiles := task.URLFiles ++ pre },
          { res with ValidURLs := res.ValidURLs ++ pre, RejectedURLs := res.RejectedURLs ++ rest },
          some (task.ID, task.URLFiles ++ pre)) := by
  induction pre with
  | nil => intro w w2 task res hne; exact absurd rfl hne
  | cons url pre1 ih =>
    intro w w2 task res _ hv hq
    rw [validateAll] at hv
    rcases hc : checkURL net cfg w url with ⟨_ | reason, w1⟩
    swap
    · rw [hc] at hv; cases hv
    rw [hc] at hv
    simp only at hv
    cases pre1 with
    | nil =>
      rw [validateAll] at hv
      have hw : w1 = w2 := Option.some.inj hv
      subst hw
      simp only [List.length_cons, List.length_nil, Nat.zero_add] at hq
      rw [List.singleton_append, addLoop_quota net cfg w w1 task res url rest hc hq]
      unfold acceptURL
      split <;> rfl
    | cons url1 pre2 =>
      have hq1 : ((task.URLFiles.length + 1 : Nat) : Int) ≠ cfg.Conditions.MaxFilesPerTask := by
        rw [← hq]
        simp only [List.length_cons]
        intro h
        have := Int.ofNat_inj.mp h
        omega
      rw [List.cons_append, addLoop_continue net cfg w w1 task res url _ hc hq1]
      rw [ih w1 w2 (acceptURL task url) _ (by simp) hv
        (by rw [acceptURL_URLFiles, ← hq]; simp only [List.length_append, List.length_cons,
              List.length_nil]; congr 1; omega)]
      rw [acceptURL_ID, acceptURL_URLArchive, acceptURL_Errors, acceptURL_URLFiles]
      simp only [List.append_assoc, List.singleton_append]

/-! ## A content type outside the allow-list -/

theorem checkURL_disallowed {W : Type} (net : Net W) (cfg : Config) (w : W)
    (bad scheme host contentType ty sub : String)
    (hparse : net.ParseRequestURI bad = some (scheme, host))
    (hscheme : scheme = "http" ∨ scheme = "https") (hhost : host ≠ "")
    (hhead : (net.Head w bad).1 = some contentType)
    (hsplit : Split ((Split contentType ';').headD "") '/' = [ty, sub])
    (hsub : sub ∉ cfg.Conditions.AllowedExtensionsMap) :
    checkURL net cfg w bad = (some "invalid file extension", (net.Head w bad).2) := by
  have hct : contentType ≠ "" := by
    intro h
    rw [h] at hsplit
    have h1 : Split ((Split "" ';').headD "") '/' = [""] := by decide
    rw [h1] at hsplit
    cases hsplit
  have hsch : ¬((scheme ≠ "http" ∧ scheme ≠ "https") ∨ host = "") := by
    rintro (⟨h1, h2⟩ | h3)
    · rcases hscheme with h | h
      · exact h1 h
      · exact h2 h
    · exact hhost h3
  unfold checkURL
  rw [hparse]
  simp only [hsch, if_false]
  rcases hh : net.Head w bad with ⟨r, w1⟩
  rw [hh] at hhead
  simp only at hhead
  subst hhead
  simp only [hct, if_false, hsplit, List.length_cons, List.length_nil, ne_eq,
    not_true_eq_false, List.getD_cons_succ, List.getD_cons_zero, hsub]

theorem demoSys3_reachable : Reachable demoCfg demoSys3 :=
  Relation.ReflTransGen.tail demoSys2_reachable demoSys2_step

theorem demoSys4_reachable : Reachable demoCfg demoSys4 :=
  Relation.ReflTransGen.tail demoSys3_reachable (Step.getStatusTask demoSys3 "t1")

theorem demoSvc3_task : demoSvc3.tasks "t1" =
    some
      { ID := "t1", Status := StatusCompleted
        URLArchive := "http://localhost:8080/archives/t1.zip"
        Errors :=
          ["failed to download file u2, error: failed to download file: status code 404"]
        URLFiles := ["u1", "u2", "u3"] } := by
  decide

theorem zeroSys2_reachable : Reachable zeroCfg zeroSys2 :=
  Relation.ReflTransGen.tail
    (Relation.ReflTransGen.tail Relation.ReflTransGen.refl
      (Step.createTask (System.init zeroCfg) "t1" rfl))
    (Step.addURLs zeroSys1 demoNet [] "t1" ["u1"])

theorem demoNet_good (w0 : List String) : (checkURL demoNet pairSvc.cfg w0 "good").1 = none := by
  have h1 : Split ((Split "application/pdf; charset=binary" ';').headD "") '/'
      = ["application", "pdf"] := by decide
  have h2 : "pdf" ∈ pairSvc.cfg.Conditions.AllowedExtensionsMap := by decide
  have h3 : ¬(("https" ≠ "http" ∧ "https" ≠ "https") ∨ "files.example" = "") := by decide
  have h4 : ¬("good" = "bad") := by decide
  have h5 : ¬("application/pdf; charset=binary" = "") := by decide
  unfold checkURL
  simp only [demoNet, h3, h4, h5, if_false, h1, List.length_cons, List.length_nil, ne_eq,
    not_true_eq_false, List.getD_cons_succ, List.getD_cons_zero, h2, if_true]
  have h6 : ¬(¬"https" = "http" ∧ False ∨ "files.example" = "") := by decide
  rw [if_neg h6]

/-! ## Splitting a content type -/

theorem splitChars_of_not_mem (sep : Char) (l : List Char) (h : sep ∉ l) :
    splitChars sep l = [l] := by
  induction l with
  | nil => rfl
  | cons c cs ih =>
    have hc : c ≠ sep := fun e => h (by rw [e]; exact List.mem_cons_self _ _)
    have hcs : sep ∉ cs := fun m => h (List.mem_cons_of_mem _ m)
    rw [splitChars, if_neg hc, ih hcs]

theorem splitChars_append_sep (sep : Char) (a b : List Char) (h : sep ∉ a) :
    splitChars sep (a ++ sep :: b) = a :: splitChars sep b := by
  induction a with
  | nil => simp [splitChars]
  | cons c cs ih =>
    have hc : c ≠ sep := fun e => h (by rw [e]; exact List.mem_cons_self _ _)
    have hcs : sep ∉ cs := fun m => h (List.mem_cons_of_mem _ m)
    rw [List.cons_append, splitChars, if_neg hc, ih hcs]

/-- The media type of `type/subtype` followed by nothing or by `;` and
parameters is `type/subtype`, and it splits at the slash into the two. -/
theorem Split_mime (ty sub params : String)
    (hty : ∀ c ∈ ty.data, c ≠ '/' ∧ c ≠ ';') (hsub : ∀ c ∈ sub.data, c ≠ '/' ∧ c ≠ ';')
    (hparams : params = "" ∨ ∃ rest, params = ";" ++ rest) :
    Split ((Split (ty ++ "/" ++ sub ++ params) ';').headD "") '/' = [ty, sub] := by
  have hsemi : ';' ∉ ty.data ++ '/' :: sub.data := by
    intro hm
    rcases List.mem_append.mp hm with h | h
    · exact (hty _ h).2 rfl
    · rcases List.mem_cons.mp h with h | h
      · exact absurd h (by decide)
      · exact (hsub _ h).2 rfl
  have hslash1 : '/' ∉ ty.data := fun h => (hty _ h).1 rfl
  have hslash2 : '/' ∉ sub.data := fun h => (hsub _ h).1 rfl
  have hmime : (Split (ty ++ "/" ++ sub ++ params) ';').headD ""
      = String.mk (ty.data ++ '/' :: sub.data) := by
    rcases hparams with h | ⟨rest, h⟩
    · subst h
      have hd : (ty ++ "/" ++ sub ++ "").data = ty.data ++ '/' :: sub.data := by
        simp [String.data_append]
      rw [Split, hd, splitChars_of_not_mem _ _ hsemi]
      rfl
    · subst h
      have hd : (ty ++ "/" ++ sub ++ (";" ++ rest)).data
          = (ty.data ++ '/' :: sub.data) ++ ';' :: rest.data := by
        simp [String.data_append]
      rw [Split, hd, splitChars_append_sep _ _ _ hsemi]
      rfl
  rw [hmime, Split]
  simp only
  rw [splitChars_append_sep _ _ _ hslash1, splitChars_of_not_mem _ _ hslash2]
  rfl

/-! ## Admission control and submission errors -/

/-- C1: `CreateTask` returns an error exactly when the number of ids in the
active set is at least `MaxCountCurrentTask`, and a failing call leaves the
whole store (task map, active set, completed set) as it was. -/
theorem CreateTask_rejects_iff_full (s : Service) (taskID : String) :
    ((∃ err, (CreateTask s taskID).1 = Except.error err) ↔
        s.cfg.Conditions.MaxCountCurrentTask ≤ (s.activeTasks.card : Int)) ∧
      (∀ err, (CreateTask s taskID).1 = Except.error err → (CreateTask s taskID).2 = s) := by
  unfold CreateTask
  by_cases h : s.cfg.Conditions.MaxCountCurrentTask ≤ (s.activeTasks.card : Int)
  · simp [h]
  · simp [h]

/-- C2: `AddURLs` returns an error exactly when the id is not a key of the task
map or the task's status is neither pending nor add_links; so on a task in
processing, completed or failed it fails for every URL list. -/
theorem AddURLs_error_iff {W : Type} (net : Net W) (s : Service) (w : W) (taskID : String)
    (urls : List String) :
    ((∃ err, (AddURLs net s w taskID urls).ret = Except.error err) ↔
        (s.tasks taskID = none ∨
          ∃ task, s.tasks taskID = some task ∧
            ¬(task.Status = StatusPending ∨ task.Status = StatusAddLinks))) ∧
      (∀ task, s.tasks taskID = some task →
        (task.Status = StatusProcessing ∨ task.Status = StatusCompleted ∨
          task.Status = StatusFailed) →
        ∃ err, (AddURLs net s w taskID urls).ret = Except.error err) := by
  unfold AddURLs
  cases hT : s.tasks taskID with
  | none => simp
  | some task =>
    by_cases hS : task.Status = StatusAddLinks ∨ task.Status = StatusPending
    · have hS2 : task.Status = StatusPending ∨ task.Status = StatusAddLinks := hS.symm
      simp only [hS, not_true_eq_false, if_false]
      refine ⟨⟨?_, ?_⟩, ?_⟩
      · rintro ⟨err, h⟩; cases h
      · rintro (h | ⟨t, ht, hn⟩)
        · cases h
        · cases ht; exact absurd hS2 hn
      · intro t ht hst
        cases ht
        rcases hS with h | h <;> rcases hst with h2 | h2 | h2 <;> rw [h] at h2 <;> cases h2
    · have hS2 : ¬(task.Status = StatusPending ∨ task.Status = StatusAddLinks) :=
        fun h => hS h.symm
      simp only [hS, not_false_eq_true, if_true]
      exact ⟨⟨fun _ => Or.inr ⟨task, rfl, hS2⟩, fun _ => ⟨_, rfl⟩⟩, fun _ _ _ => ⟨_, rfl⟩⟩

/-- C3: when `AddURLs` succeeds, the lengths of `ValidURLs`, `InvalidURLs` and
`RejectedURLs` add up to the length of the input URL list. -/
theorem AddURLs_partitions_input {W : Type} (net : Net W) (s : Service) (w : W)
    (taskID : String) (urls : List String) (res : AddURLsResponse)
    (h : (AddURLs net s w taskID urls).ret = Except.ok res) :
    res.ValidURLs.length + res.InvalidURLs.length + res.RejectedURLs.length = urls.length := by
  unfold AddURLs at h
  cases hT : s.tasks taskID with
  | none => simp [hT] at h
  | some task =>
    simp only [hT] at h
    split at h
    · cases h
    · have := addLoop_lengths net s.cfg urls w task {}
      simp only [Except.ok.injEq] at h
      rw [← h]
      simpa using this

/-! ## The state machine and the store invariants -/

/-- C4: in every state reached from the empty store, one operation (`CreateTask`,
`AddURLs`, `GetStatusTask` or a pipeline write-back) keeps every task and changes
its status only along `pending → add_links → processing → completed | failed`:
the status stays, or makes one move of that order, or makes the two moves
pending → add_links → processing inside one `AddURLs` call. So it never moves
backward, and completed and failed are entered from processing only. -/
theorem status_follows_order (cfg : Config) (sys sys1 : System) (reach : Reachable cfg sys)
    (step : Step sys sys1) (taskID : String) (t : Task) (h : sys.svc.tasks taskID = some t) :
    ∃ t1, sys1.svc.tasks taskID = some t1 ∧
      (t1.Status = t.Status ∨ StatusEdge t.Status t1.Status ∨
        (StatusEdge t.Status StatusAddLinks ∧ StatusEdge StatusAddLinks t1.Status)) := by
  have inv := Inv_of_reachable cfg sys reach
  cases step with
  | createTask _ newID fresh =>
    unfold CreateTask
    split
    · exact ⟨t, h, Or.inl rfl⟩
    · refine ⟨t, ?_, Or.inl rfl⟩
      simp only [Function.update_apply]
      rw [if_neg]
      · exact h
      · intro he; rw [he, fresh] at h; cases h
  | addURLs _ net w id urls =>
    simp only
    cases hT : sys.svc.tasks id with
    | none =>
      rw [(AddURLs_of_missing net sys.svc w id urls hT).1]
      exact ⟨t, h, Or.inl rfl⟩
    | some task =>
      by_cases hS : task.Status = StatusAddLinks ∨ task.Status = StatusPending
      swap
      · rw [(AddURLs_of_closed net sys.svc w id urls task hT hS).1]
        exact ⟨t, h, Or.inl rfl⟩
      rw [AddURLs_of_open net sys.svc w id urls task hT hS]
      simp only [Function.update_apply]
      by_cases hk : taskID = id
      swap
      · rw [if_neg hk]; exact ⟨t, h, Or.inl rfl⟩
      rw [if_pos hk]
      rw [hk, hT] at h
      cases h
      refine ⟨_, rfl, ?_⟩
      obtain ⟨_, _, a3, a4⟩ := addLoop_task net sys.svc.cfg urls w t {}
      cases hl : (addLoop net sys.svc.cfg w t {} urls).2.2.2 with
      | none =>
        rcases (a3 hl).1 with h1 | h1
        · exact Or.inl h1
        · rw [h1]
          rcases hS with h2 | h2 <;> rw [h2]
          · exact Or.inl rfl
          · exact Or.inr (Or.inl StatusEdge.toAddLinks)
      | some p =>
        rw [(a4 p hl).1]
        rcases hS with h2 | h2 <;> rw [h2]
        · exact Or.inr (Or.inl StatusEdge.toProcessing)
        · exact Or.inr (Or.inr ⟨StatusEdge.toAddLinks, StatusEdge.toProcessing⟩)
  | getStatusTask _ id =>
    refine ⟨t, ?_, Or.inl rfl⟩
    unfold GetStatusTask
    split
    · exact h
    · split <;> exact h
  | writeBack _ fs id urls workers s1 launched results wrote =>
    obtain ⟨task, hT, hP⟩ := inv.proc _ launched
    simp only at hT
    obtain ⟨arrivals, hW⟩ := taskProcessing_some fs sys.svc id workers s1 wrote
    rw [taskProcessing_eq fs sys.svc id workers arrivals task hW hT] at wrote
    cases wrote
    simp only [Function.update_apply]
    by_cases hk : taskID = id
    swap
    · rw [if_neg hk]; exact ⟨t, h, Or.inl rfl⟩
    rw [if_pos hk]
    rw [hk, hT] at h
    cases h
    refine ⟨_, rfl, Or.inr (Or.inl ?_)⟩
    obtain ⟨_, _, _, f4⟩ := writeResult_fields t
      (archiveStage fs id (collect arrivals).1 (collect arrivals).2).1
      (archiveStage fs id (collect arrivals).1 (collect arrivals).2).2
    rcases f4 with ⟨_, h1, _⟩ | ⟨_, h1, _⟩ <;> rw [h1, hP]
    · exact StatusEdge.toCompleted
    · exact StatusEdge.toFailed

/-- C5 (amended): with a per-task quota `MaxFilesPerTask` of at least 1, every
task of every state reached from the empty store has at most `MaxFilesPerTask`
URLs in `URLFiles`. -/
theorem urlFiles_within_quota (cfg : Config) (sys : System) (reach : Reachable cfg sys)
    (quota : 1 ≤ cfg.Conditions.MaxFilesPerTask) (taskID : String) (t : Task)
    (h : sys.svc.tasks taskID = some t) :
    ((t.URLFiles.length : Nat) : Int) ≤ cfg.Conditions.MaxFilesPerTask :=
  ((Inv_of_reachable cfg sys reach).quota quota taskID t h).1

/-- C8: in every state reached from the empty store no id is in both the active
set and the completed set, and every id of either set is a key of the task map. -/
theorem active_completed_disjoint_keys (cfg : Config) (sys : System)
    (reach : Reachable cfg sys) :
    (∀ id, ¬(id ∈ sys.svc.activeTasks ∧ id ∈ sys.svc.completedTask)) ∧
      (∀ id, id ∈ sys.svc.activeTasks ∨ id ∈ sys.svc.completedTask →
        ∃ t, sys.svc.tasks id = some t) := by
  have inv := Inv_of_reachable cfg sys reach
  refine ⟨fun id hid => inv.disj id hid.1 hid.2, ?_⟩
  rintro id (hid | hid)
  · exact inv.akeys id hid
  · exact inv.ckeys id hid

/-! ## Status reads -/

/-- C7: on a task whose status is completed or failed, `GetStatusTask` leaves the
id out of the active set and in the completed set, and a second call on the same
id returns the same store and the same snapshot as the first. -/
theorem GetStatusTask_moves_once (s : Service) (taskID : String) (t : Task)
    (hT : s.tasks taskID = some t)
    (hS : t.Status = StatusCompleted ∨ t.Status = StatusFailed) :
    taskID ∉ (GetStatusTask s taskID).2.activeTasks ∧
      taskID ∈ (GetStatusTask s taskID).2.completedTask ∧
      (GetStatusTask (GetStatusTask s taskID).2 taskID).2 = (GetStatusTask s taskID).2 ∧
      (GetStatusTask (GetStatusTask s taskID).2 taskID).1 = (GetStatusTask s taskID).1 := by
  have h1 : GetStatusTask s taskID =
      (Except.ok
        { Task := { ID := taskID, Status := t.Status, URLArchive := t.URLArchive,
                    Errors := t.Errors }
          ActiveTasks := s.activeTasks.erase taskID
          CompletedTasks := insert taskID s.completedTask },
        { s with activeTasks := s.activeTasks.erase taskID
                 completedTask := insert taskID s.completedTask }) := by
    unfold GetStatusTask
    simp only [hT, hS, if_true]
  rw [h1]
  refine ⟨by simp, by simp, ?_, ?_⟩
  · unfold GetStatusTask
    simp only [hT, hS, if_true]
    simp
  · unfold GetStatusTask
    simp only [hT, hS, if_true]
    simp

/-! ## The pipeline's write-back -/

theorem collect_files_mem (arrivals : List (String × Except String String)) (path : String) :
    path ∈ (collect arrivals).1 ↔ ∃ a ∈ arrivals, a.2 = Except.ok path := by
  induction arrivals with
  | nil => simp [collect]
  | cons a rest ih =>
    obtain ⟨url, r⟩ := a
    cases r with
    | ok filePath =>
      simp only [collect, List.mem_cons, exists_eq_or_imp, Except.ok.injEq]
      rw [ih]
      constructor
      · rintro (h | h)
        · exact Or.inl h.symm
        · exact Or.inr h
      · rintro (h | h)
        · exact Or.inl h.symm
        · exact Or.inr h
    | error err =>
      simp only [collect, List.mem_cons, exists_eq_or_imp, reduceCtorEq, false_or]
      exact ih

theorem zipFiles_eq_none_iff (fs : FS) (files : List String) :
    zipFiles fs files = none ↔ ∀ file ∈ files, fs.addFileToZip file = none := by
  induction files with
  | nil => simp [zipFiles]
  | cons file rest ih =>
    rw [zipFiles]
    cases h : fs.addFileToZip file with
    | some err => simp [h]
    | none => simp [h, ih]

theorem CreateZipArchive_ok_iff (fs : FS) (taskID : String) (files : List String) :
    (CreateZipArchive fs taskID files).2 = none ↔
      fs.Create taskID = none ∧ ∀ file ∈ files, fs.addFileToZip file = none := by
  rw [← zipFiles_eq_none_iff]
  unfold CreateZipArchive
  cases fs.Create taskID with
  | some err => simp
  | none =>
    cases zipFiles fs files with
    | some err => simp
    | none => simp

/-- C6: for a task in processing (in a state reached from the empty store), any
behaviour of the downloads and any behaviour of the file system: when every
worker's `DownloadFile` returns, `taskProcessing` writes a status, and it writes
completed exactly when at least one download returned a file path and the
archive was created (`os.Create` of the archive and `addFileToZip` of every
downloaded file returned no error); in every other such case it writes failed;
`URLArchive` is non-empty afterwards exactly when the status is completed. When
a worker's `DownloadFile` panics, nothing is written. -/
theorem taskProcessing_terminal_status (cfg : Config) (sys : System)
    (reach : Reachable cfg sys) (fs : FS) (taskID : String) (t : Task)
    (workers : List (String × DownloadEnv))
    (hT : sys.svc.tasks taskID = some t) (hP : t.Status = StatusProcessing) :
    ((∃ wk ∈ workers, DownloadFile wk.2 wk.1 = none) →
        taskProcessing fs sys.svc taskID workers = none) ∧
      ((∀ wk ∈ workers, DownloadFile wk.2 wk.1 ≠ none) →
        ∃ s1 t1, taskProcessing fs sys.svc taskID workers = some s1 ∧
          s1.tasks taskID = some t1 ∧
          (t1.Status = StatusCompleted ↔
            ((∃ wk ∈ workers, ∃ path, DownloadFile wk.2 wk.1 = some (Except.ok path)) ∧
              fs.Create taskID = none ∧
              ∀ wk ∈ workers, ∀ path, DownloadFile wk.2 wk.1 = some (Except.ok path) →
                fs.addFileToZip path = none)) ∧
          (t1.Status ≠ StatusCompleted → t1.Status = StatusFailed) ∧
          (t1.URLArchive ≠ "" ↔ t1.Status = StatusCompleted)) := by
  have inv := Inv_of_reachable cfg sys reach
  have hA : t.URLArchive = "" := inv.arch taskID t hT (by rw [hP]; decide)
  constructor
  · intro hpanic
    unfold taskProcessing
    rw [(runWorkers_eq_none_iff workers).mpr hpanic]
  intro hret
  have hsome : ∃ arrivals, runWorkers workers = some arrivals := by
    cases hr : runWorkers workers with
    | none =>
      obtain ⟨wk, hm, hw⟩ := (runWorkers_eq_none_iff workers).mp hr
      exact absurd hw (hret wk hm)
    | some arrivals => exact ⟨arrivals, rfl⟩
  obtain ⟨arrivals, hW⟩ := hsome
  have hok := runWorkers_ok_iff workers arrivals hW
  rw [taskProcessing_eq fs sys.svc taskID workers arrivals t hW hT]
  refine ⟨_, writeResult t
    (archiveStage fs taskID (collect arrivals).1 (collect arrivals).2).1
    (archiveStage fs taskID (collect arrivals).1 (collect arrivals).2).2, rfl, by simp, ?_⟩
  have hp : (archiveStage fs taskID (collect arrivals).1 (collect arrivals).2).1 ≠ "" ↔
      ((∃ wk ∈ workers, ∃ path, DownloadFile wk.2 wk.1 = some (Except.ok path)) ∧
        fs.Create taskID = none ∧
        ∀ wk ∈ workers, ∀ path, DownloadFile wk.2 wk.1 = some (Except.ok path) →
          fs.addFileToZip path = none) := by
    rw [archiveStage_path, collect_files_ne_nil, CreateZipArchive_ok_iff]
    constructor
    · rintro ⟨⟨a, ha, path, hpath⟩, hc, hz⟩
      refine ⟨?_, hc, ?_⟩
      · obtain ⟨wk, hm, hw⟩ := (hok path).mp ⟨a, ha, hpath⟩
        exact ⟨wk, hm, path, hw⟩
      · intro wk hm path hw
        exact hz path ((collect_files_mem arrivals path).mpr ((hok path).mpr ⟨wk, hm, hw⟩))
    · rintro ⟨⟨wk, hm, path, hw⟩, hc, hz⟩
      refine ⟨?_, hc, ?_⟩
      · obtain ⟨a, ha, hpath⟩ := (hok path).mpr ⟨wk, hm, hw⟩
        exact ⟨a, ha, path, hpath⟩
      · intro file hf
        obtain ⟨wk, hm, hw⟩ := (hok file).mp ((collect_files_mem arrivals file).mp hf)
        exact hz wk hm file hw
  obtain ⟨_, _, _, f4⟩ := writeResult_fields t
    (archiveStage fs taskID (collect arrivals).1 (collect arrivals).2).1
    (archiveStage fs taskID (collect arrivals).1 (collect arrivals).2).2
  rcases f4 with ⟨g1, g2, g3⟩ | ⟨g1, g2, g3⟩
  · rw [g2, g3]
    refine ⟨?_, ?_, ?_⟩
    · exact Iff.intro (fun _ => hp.mp g1) (fun _ => rfl)
    · intro h; exact absurd rfl h
    · exact Iff.intro (fun _ => rfl) (fun _ => g1)
  · rw [g2, g3, hA]
    refine ⟨?_, ?_, ?_⟩
    · exact Iff.intro (fun h => by cases h) (fun h => absurd g1 (hp.mpr h))
    · intro _; rfl
    · exact Iff.intro (fun h => absurd rfl h) (fun h => by cases h)

/-! ## Submissions that reach, or do not reach, the quota -/

/-- C9: with quota `q ≥ 1`, on a pending task with no URLs and an input whose
first `q` URLs pass validation one after the other, `AddURLs` returns the first
`q` URLs as `ValidURLs`, the remaining ones as `RejectedURLs` and no
`InvalidURLs`, sets the status to processing, launches the pipeline with exactly
the first `q` URLs, and leaves the world as it is after the `q` probes: the URLs
past the quota are not handed to the validator. -/
theorem AddURLs_fills_quota {W : Type} (net : Net W) (s : Service) (w w1 : W)
    (taskID : String) (task : Task) (urls : List String) (q : Nat)
    (hq : 1 ≤ q) (hcfg : s.cfg.Conditions.MaxFilesPerTask = (q : Int))
    (hT : s.tasks taskID = some task) (hS : task.Status = StatusPending)
    (hU : task.URLFiles = []) (hlen : q ≤ urls.length)
    (hV : validateAll net s.cfg w (urls.take q) = some w1) :
    (AddURLs net s w taskID urls).ret =
        Except.ok { ValidURLs := urls.take q, InvalidURLs := [], RejectedURLs := urls.drop q } ∧
      (AddURLs net s w taskID urls).svc.tasks taskID =
        some { task with Status := StatusProcessing, URLFiles := urls.take q } ∧
      (AddURLs net s w taskID urls).launched = some (task.ID, urls.take q) ∧
      (AddURLs net s w taskID urls).world = w1 := by
  rw [AddURLs_of_open net s w taskID urls task hT (Or.inr hS)]
  have hne : urls.take q ≠ [] := by
    intro h
    have := congrArg List.length h
    simp only [List.length_take, List.length_nil] at this
    omega
  have hlen2 : ((task.URLFiles.length + (urls.take q).length : Nat) : Int)
      = s.cfg.Conditions.MaxFilesPerTask := by
    rw [hU, hcfg, List.length_take]
    simp only [List.length_nil, Nat.zero_add]
    congr 1
    omega
  have key := addLoop_fill net s.cfg (urls.drop q) (urls.take q) w w1 task {} hne hV hlen2
  rw [List.take_append_drop] at key
  rw [key, hU]
  simp

/-- C10 (amended): with quota 2, on a pending task with no URLs, submitting
together (in either order) one URL whose content-type subtype is not in the
allow-list and one URL that passes validation makes `AddURLs` return the valid
URL as the only accepted one, the bad URL as the only invalid one with the
reason `"invalid file extension"`, and no rejected URL; the status afterwards is
add_links and no pipeline is launched. -/
theorem AddURLs_mixed_batch {W : Type} (net : Net W) (s : Service) (w : W) (taskID : String)
    (task : Task) (good bad scheme host contentType ty sub : String) (urls : List String)
    (hcfg : s.cfg.Conditions.MaxFilesPerTask = 2)
    (hT : s.tasks taskID = some task) (hS : task.Status = StatusPending)
    (hU : task.URLFiles = [])
    (hgood : ∀ w0, (checkURL net s.cfg w0 good).1 = none)
    (hparse : net.ParseRequestURI bad = some (scheme, host))
    (hscheme : scheme = "http" ∨ scheme = "https") (hhost : host ≠ "")
    (hhead : ∀ w0, (net.Head w0 bad).1 = some contentType)
    (hsplit : Split ((Split contentType ';').headD "") '/' = [ty, sub])
    (hsub : sub ∉ s.cfg.Conditions.AllowedExtensionsMap)
    (hurls : urls = [bad, good] ∨ urls = [good, bad]) :
    (AddURLs net s w taskID urls).ret =
        Except.ok
          { ValidURLs := [good]
            InvalidURLs := [{ URL := bad, Reason := "invalid file extension" }]
            RejectedURLs := [] } ∧
      (AddURLs net s w taskID urls).svc.tasks taskID =
        some { task with Status := StatusAddLinks, URLFiles := [good] } ∧
      (AddURLs net s w taskID urls).launched = none := by
  rw [AddURLs_of_open net s w taskID urls task hT (Or.inr hS)]
  have hb := fun w0 => checkURL_disallowed net s.cfg w0 bad scheme host contentType ty sub
    hparse hscheme hhost (hhead w0) hsplit hsub
  have hg : ∀ w0, checkURL net s.cfg w0 good = (none, (checkURL net s.cfg w0 good).2) := by
    intro w0
    have := hgood w0
    rcases hc : checkURL net s.cfg w0 good with ⟨r, w1⟩
    rw [hc] at this
    simp only at this
    rw [this]
  have hq : ((task.URLFiles.length + 1 : Nat) : Int) ≠ s.cfg.Conditions.MaxFilesPerTask := by
    rw [hU, hcfg]; decide
  have hacc : acceptURL task good = { task with Status := StatusAddLinks, URLFiles := [good] } := by
    unfold acceptURL; rw [hU]; simp
  rcases hurls with h | h <;> subst h
  · rw [addLoop_invalid net s.cfg w _ task _ bad _ _ (hb w),
      addLoop_continue net s.cfg _ _ task _ good [] (hg _) hq, addLoop_nil, hacc]
    simp
  · rw [addLoop_continue net s.cfg w _ task _ good _ (hg w) hq,
      addLoop_invalid net s.cfg _ _ _ _ bad _ _ (hb _), addLoop_nil, hacc]
    simp

/-! ## The claims on the worked run -/

/-- C3 on the worked run: five URLs submitted to `t1` under quota 3, the second one
of a disallowed type, end as three valid, one invalid and one rejected URL. -/
theorem AddURLs_partitions_input_witness :
    (AddURLs demoNet demoSys1.svc [] "t1" ["u1", "bad", "u2", "u3", "u4"]).ret =
        Except.ok
          { ValidURLs := ["u1", "u2", "u3"]
            InvalidURLs := [{ URL := "bad", Reason := "invalid file extension" }]
            RejectedURLs := ["u4"] } ∧
      ["u1", "u2", "u3"].length + [InvalidURL.mk "bad" "invalid file extension"].length
          + ["u4"].length
        = ["u1", "bad", "u2", "u3", "u4"].length :=
  ⟨by decide,
    AddURLs_partitions_input demoNet demoSys1.svc [] "t1" ["u1", "bad", "u2", "u3", "u4"]
      { ValidURLs := ["u1", "u2", "u3"]
        InvalidURLs := [{ URL := "bad", Reason := "invalid file extension" }]
        RejectedURLs := ["u4"] }
      (by decide)⟩

/-- C4 on the worked run: the write-back of the pipeline of `t1` moves it from
processing along the order. -/
theorem status_follows_order_witness :
    ∃ t1, demoSys3.svc.tasks "t1" = some t1 ∧
      (t1.Status = StatusProcessing ∨ StatusEdge StatusProcessing t1.Status ∨
        (StatusEdge StatusProcessing StatusAddLinks ∧ StatusEdge StatusAddLinks t1.Status)) :=
  status_follows_order demoCfg demoSys2 demoSys3 demoSys2_reachable demoSys2_step "t1"
    { ID := "t1", Status := StatusProcessing, URLFiles := ["u1", "u2", "u3"] } demoSys2_task

/-- C5 (amended) on the worked run: `t1` holds three URLs under quota 3. -/
theorem urlFiles_within_quota_witness :
    ((["u1", "u2", "u3"].length : Nat) : Int) ≤ demoCfg.Conditions.MaxFilesPerTask :=
  urlFiles_within_quota demoCfg demoSys2 demoSys2_reachable (by decide) "t1"
    { ID := "t1", Status := StatusProcessing, URLFiles := ["u1", "u2", "u3"] } demoSys2_task

/-- C5 as stated fails for quota 0: after `CreateTask` and one `AddURLs` with a
valid URL the task holds one URL, more than `MaxFilesPerTask = 0`. -/
theorem urlFiles_exceed_quota_zero :
    Reachable zeroCfg zeroSys2 ∧ zeroCfg.Conditions.MaxFilesPerTask = 0 ∧
      zeroSys2.svc.tasks "t1" =
        some { ID := "t1", Status := StatusAddLinks, URLFiles := ["u1"] } ∧
      ¬(((["u1"].length : Nat) : Int) ≤ zeroCfg.Conditions.MaxFilesPerTask) :=
  ⟨zeroSys2_reachable, by decide, by decide, by decide⟩

/-- C6 on the worked run: the write-back for `t1` with two successful downloads
out of three and a file system that takes every write. -/
theorem taskProcessing_terminal_status_witness :
    ((∃ wk ∈ demoWorkers, DownloadFile wk.2 wk.1 = none) →
        taskProcessing demoFS demoSys2.svc "t1" demoWorkers = none) ∧
      ((∀ wk ∈ demoWorkers, DownloadFile wk.2 wk.1 ≠ none) →
        ∃ s1 t1, taskProcessing demoFS demoSys2.svc "t1" demoWorkers = some s1 ∧
          s1.tasks "t1" = some t1 ∧
          (t1.Status = StatusCompleted ↔
            ((∃ wk ∈ demoWorkers, ∃ path, DownloadFile wk.2 wk.1 = some (Except.ok path)) ∧
              demoFS.Create "t1" = none ∧
              ∀ wk ∈ demoWorkers, ∀ path, DownloadFile wk.2 wk.1 = some (Except.ok path) →
                demoFS.addFileToZip path = none)) ∧
          (t1.Status ≠ StatusCompleted → t1.Status = StatusFailed) ∧
          (t1.URLArchive ≠ "" ↔ t1.Status = StatusCompleted)) :=
  taskProcessing_terminal_status demoCfg demoSys2 demoSys2_reachable demoFS "t1"
    { ID := "t1", Status := StatusProcessing, URLFiles := ["u1", "u2", "u3"] } demoWorkers
    demoSys2_task rfl

/-- C7 on the worked run: reading the status of the completed task `t1` twice. -/
theorem GetStatusTask_moves_once_witness :
    "t1" ∉ (GetStatusTask demoSvc3 "t1").2.activeTasks ∧
      "t1" ∈ (GetStatusTask demoSvc3 "t1").2.completedTask ∧
      (GetStatusTask (GetStatusTask demoSvc3 "t1").2 "t1").2 = (GetStatusTask demoSvc3 "t1").2 ∧
      (GetStatusTask (GetStatusTask demoSvc3 "t1").2 "t1").1 = (GetStatusTask demoSvc3 "t1").1 :=
  GetStatusTask_moves_once demoSvc3 "t1" _ demoSvc3_task (Or.inl rfl)

/-- C8 on the worked run: the state after the status read of the finished `t1`. -/
theorem active_completed_disjoint_keys_witness :
    (∀ id, ¬(id ∈ demoSys4.svc.activeTasks ∧ id ∈ demoSys4.svc.completedTask)) ∧
      (∀ id, id ∈ demoSys4.svc.activeTasks ∨ id ∈ demoSys4.svc.completedTask →
        ∃ t, demoSys4.svc.tasks id = some t) :=
  active_completed_disjoint_keys demoCfg demoSys4 demoSys4_reachable

/-- C9 on the worked run: quota 3 and input `[u1, u2, u3, u4, u5]` give accepted
`[u1, u2, u3]`, rejected `[u4, u5]`, a pipeline on `[u1, u2, u3]`, and exactly
three probes. -/
theorem AddURLs_fills_quota_witness :
    (AddURLs demoNet demoSys1.svc [] "t1" ["u1", "u2", "u3", "u4", "u5"]).ret =
        Except.ok
          { ValidURLs := ["u1", "u2", "u3"], InvalidURLs := [], RejectedURLs := ["u4", "u5"] } ∧
      (AddURLs demoNet demoSys1.svc [] "t1" ["u1", "u2", "u3", "u4", "u5"]).svc.tasks "t1" =
        some { ID := "t1", Status := StatusProcessing, URLFiles := ["u1", "u2", "u3"] } ∧
      (AddURLs demoNet demoSys1.svc [] "t1" ["u1", "u2", "u3", "u4", "u5"]).launched =
        some ("t1", ["u1", "u2", "u3"]) ∧
      (AddURLs demoNet demoSys1.svc [] "t1" ["u1", "u2", "u3", "u4", "u5"]).world =
        ["u1", "u2", "u3"] :=
  AddURLs_fills_quota demoNet demoSys1.svc [] ["u1", "u2", "u3"] "t1"
    { ID := "t1", Status := StatusPending } ["u1", "u2", "u3", "u4", "u5"] 3
    (by decide) (by decide) (by decide) rfl rfl (by decide) (by decide)

/-- C10 (amended) at quota 2 with `bad` served as `image/png` and `good` as a PDF. -/
theorem AddURLs_mixed_batch_witness :
    (AddURLs demoNet pairSvc [] "t1" ["bad", "good"]).ret =
        Except.ok
          { ValidURLs := ["good"]
            InvalidURLs := [{ URL := "bad", Reason := "invalid file extension" }]
            RejectedURLs := [] } ∧
      (AddURLs demoNet pairSvc [] "t1" ["bad", "good"]).svc.tasks "t1" =
        some { ID := "t1", Status := StatusAddLinks, URLFiles := ["good"] } ∧
      (AddURLs demoNet pairSvc [] "t1" ["bad", "good"]).launched = none :=
  AddURLs_mixed_batch demoNet pairSvc [] "t1" { ID := "t1", Status := StatusPending }
    "good" "bad" "https" "files.example" "image/png" "image" "png" ["bad", "good"]
    (by decide) (by decide) rfl rfl demoNet_good rfl (Or.inr rfl)
    (by decide) (fun _ => by simp [demoNet]) (by decide) (by decide) (Or.inl rfl)

/-- C10 as stated fails: at quota 2, with `bad` served as `image/png` (not in the
allow-list) and `good` passing validation, the response of `AddURLs` is not the
one whose invalid entry carries the reason `"DisallowedType"`. -/
theorem AddURLs_reason_is_not_DisallowedType :
    pairCfg.Conditions.MaxFilesPerTask = 2 ∧
      pairSvc.tasks "t1" = some { ID := "t1", Status := StatusPending, URLFiles := [] } ∧
      (demoNet.Head [] "bad").1 = some "image/png" ∧
      Split ((Split "image/png" ';').headD "") '/' = ["image", "png"] ∧
      "png" ∉ pairCfg.Conditions.AllowedExtensionsMap ∧
      (checkURL demoNet pairCfg ["bad"] "good").1 = none ∧
      (AddURLs demoNet pairSvc [] "t1" ["bad", "good"]).ret ≠
        Except.ok
          { ValidURLs := ["good"]
            InvalidURLs := [{ URL := "bad", Reason := "DisallowedType" }]
            RejectedURLs := [] } := by
  decide

/-! ## The validator, check by check -/

theorem checkURL_final {W : Type} (net : Net W) (cfg : Config) (w : W)
    (rawURL scheme host contentType ty sub : String)
    (hparse : net.ParseRequestURI rawURL = some (scheme, host))
    (hscheme : scheme = "http" ∨ scheme = "https") (hhost : host ≠ "")
    (hhead : (net.Head w rawURL).1 = some contentType)
    (hsplit : Split ((Split contentType ';').headD "") '/' = [ty, sub]) :
    checkURL net cfg w rawURL =
      (if sub ∈ cfg.Conditions.AllowedExtensionsMap then none
        else some "invalid file extension", (net.Head w rawURL).2) := by
  have hct : contentType ≠ "" := by
    intro h
    rw [h] at hsplit
    have h1 : Split ((Split "" ';').headD "") '/' = [""] := by decide
    rw [h1] at hsplit
    cases hsplit
  have hsch : ¬((scheme ≠ "http" ∧ scheme ≠ "https") ∨ host = "") := by
    rintro (⟨h1, h2⟩ | h3)
    · rcases hscheme with h | h
      · exact h1 h
      · exact h2 h
    · exact hhost h3
  unfold checkURL
  rw [hparse]
  simp only [hsch, if_false]
  rcases hh : net.Head w rawURL with ⟨r, w1⟩
  rw [hh] at hhead
  simp only at hhead
  subst hhead
  simp only [hct, if_false, hsplit, List.length_cons, List.length_nil, ne_eq,
    not_true_eq_false, List.getD_cons_succ, List.getD_cons_zero]
  split <;> rfl

theorem checkURL_malformed {W : Type} (net : Net W) (cfg : Config) (w : W) (rawURL : String)
    (h : net.ParseRequestURI rawURL = none ∨
      ∃ scheme host, net.ParseRequestURI rawURL = some (scheme, host) ∧
        ((scheme ≠ "http" ∧ scheme ≠ "https") ∨ host = "")) :
    checkURL net cfg w rawURL = (some "invalid URL format", w) := by
  unfold checkURL
  rcases h with h | ⟨scheme, host, h, hb⟩
  · rw [h]
  · rw [h]; simp only [hb, if_true]

theorem checkURL_unreachable {W : Type} (net : Net W) (cfg : Config) (w : W)
    (rawURL scheme host : String)
    (hparse : net.ParseRequestURI rawURL = some (scheme, host))
    (hscheme : scheme = "http" ∨ scheme = "https") (hhost : host ≠ "")
    (hhead : (net.Head w rawURL).1 = none) :
    checkURL net cfg w rawURL = (some "URL not reachable", (net.Head w rawURL).2) := by
  have hsch : ¬((scheme ≠ "http" ∧ scheme ≠ "https") ∨ host = "") := by
    rintro (⟨h1, h2⟩ | h3)
    · rcases hscheme with h | h
      · exact h1 h
      · exact h2 h
    · exact hhost h3
  unfold checkURL
  rw [hparse]
  simp only [hsch, if_false]
  rcases hh : net.Head w rawURL with ⟨r, w1⟩
  rw [hh] at hhead
  simp only at hhead
  subst hhead
  rfl

theorem checkURL_empty_content_type {W : Type} (net : Net W) (cfg : Config) (w : W)
    (rawURL scheme host : String)
    (hparse : net.ParseRequestURI rawURL = some (scheme, host))
    (hscheme : scheme = "http" ∨ scheme = "https") (hhost : host ≠ "")
    (hhead : (net.Head w rawURL).1 = some "") :
    checkURL net cfg w rawURL = (some "empty content type", (net.Head w rawURL).2) := by
  have hsch : ¬((scheme ≠ "http" ∧ scheme ≠ "https") ∨ host = "") := by
    rintro (⟨h1, h2⟩ | h3)
    · rcases hscheme with h | h
      · exact h1 h
      · exact h2 h
    · exact hhost h3
  unfold checkURL
  rw [hparse]
  simp only [hsch, if_false]
  rcases hh : net.Head w rawURL with ⟨r, w1⟩
  rw [hh] at hhead
  simp only at hhead
  subst hhead
  rfl

theorem foldl_insert_mem (exts : List String) :
    ∀ (m : Finset String) (ext : String),
      ext ∈ exts.foldl (fun m e => insert e m) m ↔ ext ∈ m ∨ ext ∈ exts := by
  induction exts with
  | nil => intro m ext; simp
  | cons e rest ih =>
    intro m ext
    rw [List.foldl_cons, ih, Finset.mem_insert, List.mem_cons]
    tauto

theorem MustLoad_allowed_iff (a b : Int) (exts : List String) (ext : String) :
    ext ∈ (MustLoad a b exts).Conditions.AllowedExtensionsMap ↔ ext ∈ exts := by
  unfold MustLoad
  simp only [foldl_insert_mem, Finset.not_mem_empty, false_or]

/-- C11: when the URL-format check, the HEAD probe and the non-empty-content-type
check have passed and the Content-Type header is `type/subtype`, alone or
followed by `;` and parameters, `checkURL` accepts the URL exactly when the
subtype (the text after `/` and before any `;`) is a key of
`AllowedExtensionsMap`, and otherwise rejects it with the reason
`"invalid file extension"`. -/
theorem checkURL_accepts_iff_subtype_allowed {W : Type} (net : Net W) (cfg : Config) (w : W)
    (rawURL scheme host ty sub params : String)
    (hparse : net.ParseRequestURI rawURL = some (scheme, host))
    (hscheme : scheme = "http" ∨ scheme = "https") (hhost : host ≠ "")
    (hhead : (net.Head w rawURL).1 = some (ty ++ "/" ++ sub ++ params))
    (hty : ∀ c ∈ ty.data, c ≠ '/' ∧ c ≠ ';') (hsub : ∀ c ∈ sub.data, c ≠ '/' ∧ c ≠ ';')
    (hparams : params = "" ∨ ∃ rest, params = ";" ++ rest) :
    ((checkURL net cfg w rawURL).1 = none ↔ sub ∈ cfg.Conditions.AllowedExtensionsMap) ∧
      (sub ∉ cfg.Conditions.AllowedExtensionsMap →
        (checkURL net cfg w rawURL).1 = some "invalid file extension") := by
  rw [checkURL_final net cfg w rawURL scheme host _ ty sub hparse hscheme hhost hhead
    (Split_mime ty sub params hty hsub hparams)]
  by_cases h : sub ∈ cfg.Conditions.AllowedExtensionsMap
  · simp [h]
  · simp [h]
/-- C11 on the worked run: `u1` is served as `application/pdf; charset=binary`
and `pdf` is in the allow-list. -/
theorem checkURL_accepts_iff_subtype_allowed_witness :
    ((checkURL demoNet demoCfg [] "u1").1 = none ↔
        "pdf" ∈ demoCfg.Conditions.AllowedExtensionsMap) ∧
      ("pdf" ∉ demoCfg.Conditions.AllowedExtensionsMap →
        (checkURL demoNet demoCfg [] "u1").1 = some "invalid file extension") :=
  checkURL_accepts_iff_subtype_allowed demoNet demoCfg [] "u1" "https" "files.example"
    "application" "pdf" "; charset=binary" rfl (Or.inr rfl) (by decide) (by decide)
    (by decide) (by decide) (Or.inr ⟨" charset=binary", by decide⟩)

/-! ## The subtype index in `DownloadFile` -/

/-- When `DownloadFile` panics: exactly on a response with status 200 whose media
type, split at `/`, has fewer than two pieces. -/
theorem DownloadFile_panics_iff (env : DownloadEnv) (url : String) :
    DownloadFile env url = none ↔
      ∃ contentType, env.Get url = Except.ok (200, contentType) ∧
        (Split ((Split contentType ';').headD "") '/').length < 2 := by
  unfold DownloadFile
  rcases hg : env.Get url with err | ⟨statusCode, contentType⟩
  · simp
  · by_cases hs : statusCode = 200
    · subst hs
      simp only [ne_eq, not_true_eq_false, if_false, Except.ok.injEq, Prod.mk.injEq, true_and,
        exists_eq_left']
      rcases hl : (Split ((Split contentType ';').headD "") '/').get? 1 with _ | ext
      · simp only [true_iff]
        exact Nat.lt_of_le_of_lt (List.get?_eq_none.mp hl) (by omega)
      · have : 1 < (Split ((Split contentType ';').headD "") '/').length := by
          by_contra hlt
          rw [List.get?_eq_none.mpr (by omega)] at hl
          cases hl
        simp only
        constructor
        · intro h
          split at h
          · cases h
          · split at h <;> cases h
        · intro h; omega
    · simp only [ne_eq, hs, not_false_eq_true, if_true, reduceCtorEq, Except.ok.injEq,
        Prod.mk.injEq, false_iff, not_exists, not_and]
      intro ct h
      exact h.1.elim

/-- C13 fails on the code: on a response with status 200 and no `Content-Type`
header, `strings.Split(mime, "/")` has the single element `""` and the index
`[1]` in `DownloadFile` panics; no file path and no error is returned. -/
theorem DownloadFile_panics_without_content_type :
    bareEnv.Get "http://files.example/a.pdf" = Except.ok (200, "") ∧
      Split ((Split "" ';').headD "") '/' = [""] ∧
      DownloadFile bareEnv "http://files.example/a.pdf" = none := by
  decide

/-! ## The traced operations are the operations -/

theorem CreateTaskTraced_fst (s : Service) (taskID : String) :
    (CreateTaskTraced s taskID).1 = CreateTask s taskID := by
  unfold CreateTaskTraced CreateTask
  split <;> rfl

theorem GetStatusTaskTraced_fst (s : Service) (taskID : String) :
    (GetStatusTaskTraced s taskID).1 = GetStatusTask s taskID := by
  unfold GetStatusTaskTraced GetStatusTask
  split
  · rfl
  · split <;> rfl

theorem checkURLTraced_fst {W : Type} (net : Net W) (cfg : Config) (w : W) (url : String) :
    (checkURLTraced net cfg w url).1 = checkURL net cfg w url := by
  unfold checkURLTraced checkURL
  rcases net.ParseRequestURI url with _ | ⟨scheme, host⟩
  · rfl
  · simp only
    split
    · rfl
    · rcases net.Head w url with ⟨_ | contentType, w1⟩
      · rfl
      · simp only
        split
        · rfl
        · split
          · rfl
          · split <;> rfl

theorem checkURLTraced_events {W : Type} (net : Net W) (cfg : Config) (w : W) (url : String) :
    (checkURLTraced net cfg w url).2 = [] ∨ (checkURLTraced net cfg w url).2 = [Event.Head url] := by
  unfold checkURLTraced
  rcases net.ParseRequestURI url with _ | ⟨scheme, host⟩
  · exact Or.inl rfl
  · simp only
    split
    · exact Or.inl rfl
    · right
      rcases net.Head w url with ⟨_ | contentType, w1⟩
      · rfl
      · simp only
        split
        · rfl
        · split
          · rfl
          · split <;> rfl

theorem addLoopTraced_nil {W : Type} (net : Net W) (cfg : Config) (w : W) (task : Task)
    (res : AddURLsResponse) :
    addLoopTraced net cfg w task res [] = ((w, task, res, none), [Event.Unlock]) := by
  rw [addLoopTraced]

theorem addLoopTraced_invalid {W : Type} (net : Net W) (cfg : Config) (w w1 : W) (task : Task)
    (res : AddURLsResponse) (url reason : String) (rest : List String) (probe : List Event)
    (h : checkURLTraced net cfg w url = ((some reason, w1), probe)) :
    addLoopTraced net cfg w task res (url :: rest) =
      ((addLoopTraced net cfg w1 task
          { res with InvalidURLs := res.InvalidURLs ++ [{ URL := url, Reason := reason }] }
          rest).1,
        probe ++ Event.Log "URL is failed" ::
          (addLoopTraced net cfg w1 task
            { res with InvalidURLs := res.InvalidURLs ++ [{ URL := url, Reason := reason }] }
            rest).2) := by
  rw [addLoopTraced, h]

theorem addLoopTraced_quota {W : Type} (net : Net W) (cfg : Config) (w w1 : W) (task : Task)
    (res : AddURLsResponse) (url : String) (rest : List String) (probe : List Event)
    (h : checkURLTraced net cfg w url = ((none, w1), probe))
    (hq : ((task.URLFiles.length + 1 : Nat) : Int) = cfg.Conditions.MaxFilesPerTask) :
    addLoopTraced net cfg w task res (url :: rest) =
      ((w1, { acceptURL task url with Status := StatusProcessing },
          { res with ValidURLs := res.ValidURLs ++ [url],
                     RejectedURLs := res.RejectedURLs ++ rest },
          some (task.ID, task.URLFiles ++ [url])),
        probe ++
          (if (task.URLFiles ++ [url]).length = 1 then
            [Event.Log "task status updated to add_links"] else []) ++
          [Event.Log "the maximum number of links has been added to the task", Event.Unlock,
            Event.Go task.ID (task.URLFiles ++ [url])]) := by
  rw [addLoopTraced, h]
  simp only [acceptURL]
  split <;> simp_all

theorem addLoopTraced_continue {W : Type} (net : Net W) (cfg : Config) (w w1 : W)
    (task : Task) (res : AddURLsResponse) (url : String) (rest : List String)
    (probe : List Event)
    (h : checkURLTraced net cfg w url = ((none, w1), probe))
    (hq : ((task.URLFiles.length + 1 : Nat) : Int) ≠ cfg.Conditions.MaxFilesPerTask) :
    addLoopTraced net cfg w task res (url :: rest) =
      ((addLoopTraced net cfg w1 (acceptURL task url)
          { res with ValidURLs := res.ValidURLs ++ [url] } rest).1,
        probe ++
          (if (task.URLFiles ++ [url]).length = 1 then
            [Event.Log "task status updated to add_links"] else []) ++
          (addLoopTraced net cfg w1 (acceptURL task url)
            { res with ValidURLs := res.ValidURLs ++ [url] } rest).2) := by
  rw [addLoopTraced, h]
  simp only [acceptURL]
  split <;> simp_all

/-! ## What happens while the lock is held -/

theorem filter_network_probe (probe : List Event) (url : String)
    (hp : probe = [] ∨ probe = [Event.Head url]) (logs rest : List Event)
    (hl : ∀ e ∈ logs, ∃ msg, e = Event.Log msg) (urls : List String)
    (hr : (rest.filter Event.isNetworkIO).Sublist (urls.map Event.Head)) :
    ((probe ++ logs ++ rest).filter Event.isNetworkIO).Sublist
      ((url :: urls).map Event.Head) := by
  have hlogs : logs.filter Event.isNetworkIO = [] := by
    rw [List.filter_eq_nil_iff]
    intro e he
    obtain ⟨msg, hm⟩ := hl e he
    rw [hm]; simp [Event.isNetworkIO]
  rw [List.filter_append, List.filter_append, hlogs, List.append_nil, List.map_cons]
  rcases hp with h | h <;> subst h
  · simp only [List.filter_nil, List.nil_append]
    exact List.Sublist.cons _ hr
  · have : [Event.Head url].filter Event.isNetworkIO = [Event.Head url] := by
      simp [Event.isNetworkIO]
    rw [this, List.singleton_append]
    exact List.Sublist.cons₂ _ hr

theorem firstLog_logs (task : Task) (url : String) :
    ∀ e ∈ (if (task.URLFiles ++ [url]).length = 1 then
        [Event.Log "task status updated to add_links"] else []), ∃ msg, e = Event.Log msg := by
  intro e he
  split at he
  · rw [List.mem_singleton] at he; exact ⟨_, he⟩
  · cases he

theorem addLoopTraced_spec {W : Type} (net : Net W) (cfg : Config) (urls : List String) :
    ∀ (w : W) (task : Task) (res : AddURLsResponse),
      (addLoopTraced net cfg w task res urls).1 = addLoop net cfg w task res urls ∧
      ∃ body,
        (addLoopTraced net cfg w task res urls).2 =
          body ++ Event.Unlock ::
            ((addLoop net cfg w task res urls).2.2.2.map (fun p => Event.Go p.1 p.2)).toList ∧
        (∀ e ∈ body, (∃ url, e = Event.Head url) ∨ ∃ msg, e = Event.Log msg) ∧
        (body.filter Event.isNetworkIO).Sublist (urls.map Event.Head) := by
  induction urls with
  | nil =>
    intro w task res
    rw [addLoopTraced_nil, addLoop_nil]
    exact ⟨rfl, [], rfl, by simp, by simp⟩
  | cons url rest ih =>
    intro w task res
    have hfst := checkURLTraced_fst net cfg w url
    have hev := checkURLTraced_events net cfg w url
    rcases hct : checkURLTraced net cfg w url with ⟨⟨r, w1⟩, probe⟩
    rw [hct] at hfst hev
    simp only at hfst hev
    have hprobe : ∀ e ∈ probe, (∃ u, e = Event.Head u) ∨ ∃ msg, e = Event.Log msg := by
      intro e he
      rcases hev with h | h
      · rw [h] at he; cases he
      · rw [h, List.mem_singleton] at he; exact Or.inl ⟨url, he⟩
    cases r with
    | some reason =>
      rw [addLoopTraced_invalid net cfg w w1 task res url reason rest probe hct,
        addLoop_invalid net cfg w w1 task res url reason rest hfst.symm]
      obtain ⟨h1, body, h2, h3, h4⟩ := ih w1 task
        { res with InvalidURLs := res.InvalidURLs ++ [{ URL := url, Reason := reason }] }
      refine ⟨h1, probe ++ [Event.Log "URL is failed"] ++ body, ?_, ?_, ?_⟩
      · rw [h2]; simp
      · intro e he
        rcases List.mem_append.mp he with he | he
        · rcases List.mem_append.mp he with he | he
          · exact hprobe e he
          · rw [List.mem_singleton] at he; exact Or.inr ⟨_, he⟩
        · exact h3 e he
      · exact filter_network_probe probe url hev _ body
          (fun e he => ⟨_, List.mem_singleton.mp he⟩) rest h4
    | none =>
      by_cases hq : ((task.URLFiles.length + 1 : Nat) : Int) = cfg.Conditions.MaxFilesPerTask
      · rw [addLoopTraced_quota net cfg w w1 task res url rest probe hct hq,
          addLoop_quota net cfg w w1 task res url rest hfst.symm hq]
        refine ⟨rfl, probe ++
          (if (task.URLFiles ++ [url]).length = 1 then
            [Event.Log "task status updated to add_links"] else []) ++
          [Event.Log "the maximum number of links has been added to the task"], ?_, ?_, ?_⟩
        · simp
        · intro e he
          rcases List.mem_append.mp he with he | he
          · rcases List.mem_append.mp he with he | he
            · exact hprobe e he
            · exact Or.inr (firstLog_logs task url e he)
          · rw [List.mem_singleton] at he; exact Or.inr ⟨_, he⟩
        · have := filter_network_probe probe url hev
            ((if (task.URLFiles ++ [url]).length = 1 then
              [Event.Log "task status updated to add_links"] else []) ++
              [Event.Log "the maximum number of links has been added to the task"]) [] (by
              intro e he
              rcases List.mem_append.mp he with he | he
              · exact firstLog_logs task url e he
              · exact ⟨_, List.mem_singleton.mp he⟩) rest (by simp)
          simpa only [List.append_nil, List.append_assoc] using this
      · rw [addLoopTraced_continue net cfg w w1 task res url rest probe hct hq,
          addLoop_continue net cfg w w1 task res url rest hfst.symm hq]
        obtain ⟨h1, body, h2, h3, h4⟩ := ih w1 (acceptURL task url)
          { res with ValidURLs := res.ValidURLs ++ [url] }
        refine ⟨h1, probe ++
          (if (task.URLFiles ++ [url]).length = 1 then
            [Event.Log "task status updated to add_links"] else []) ++ body, ?_, ?_, ?_⟩
        · rw [h2]; simp
        · intro e he
          rcases List.mem_append.mp he with he | he
          · rcases List.mem_append.mp he with he | he
            · exact hprobe e he
            · exact Or.inr (firstLog_logs task url e he)
          · exact h3 e he
        · exact filter_network_probe probe url hev _ body (firstLog_logs task url) rest h4

theorem quietWhileLocked_launch (io : Event → Bool) (launched : Option (String × List String)) :
    quietWhileLocked io false ((launched.map (fun p => Event.Go p.1 p.2)).toList) = true := by
  cases launched with
  | none => rfl
  | some p => simp [quietWhileLocked]

theorem quietWhileLocked_body (io : Event → Bool) (tail : List Event) (body : List Event)
    (hb : ∀ e ∈ body, (∃ url, e = Event.Head url) ∨ ∃ msg, e = Event.Log msg) :
    quietWhileLocked io true (body ++ Event.Unlock :: tail) = true ↔
      (∀ e ∈ body, io e = false) ∧ quietWhileLocked io false tail = true := by
  induction body with
  | nil => simp [quietWhileLocked]
  | cons e rest ih =>
    have ih1 := ih (fun x hx => hb x (List.mem_cons_of_mem _ hx))
    rcases hb e (List.mem_cons_self _ _) with ⟨url, h⟩ | ⟨msg, h⟩ <;> subst h
    · rw [List.cons_append, quietWhileLocked]
      simp only [Bool.true_and, Bool.and_eq_true, Bool.not_eq_true', ih1, List.mem_cons,
        forall_eq_or_imp, and_assoc]
    · rw [List.cons_append, quietWhileLocked]
      simp only [Bool.true_and, Bool.and_eq_true, Bool.not_eq_true', ih1, List.mem_cons,
        forall_eq_or_imp, and_assoc]

theorem AddURLsTraced_spec {W : Type} (net : Net W) (s : Service) (w : W) (taskID : String)
    (urls : List String) :
    (AddURLsTraced net s w taskID urls).1 = AddURLs net s w taskID urls ∧
      ∃ body,
        (AddURLsTraced net s w taskID urls).2 =
          Event.Lock :: body ++ Event.Unlock ::
            ((AddURLs net s w taskID urls).launched.map (fun p => Event.Go p.1 p.2)).toList ∧
        (∀ e ∈ body, (∃ url, e = Event.Head url) ∨ ∃ msg, e = Event.Log msg) ∧
        (body.filter Event.isNetworkIO).Sublist (urls.map Event.Head) := by
  cases hT : s.tasks taskID with
  | none =>
    have h1 : AddURLsTraced net s w taskID urls =
        ({ ret := Except.error ("task with id " ++ taskID ++ " not found")
           svc := s, world := w, launched := none },
          [Event.Lock, Event.Log "task not found", Event.Unlock]) := by
      unfold AddURLsTraced; simp only [hT]
    have h2 : AddURLs net s w taskID urls =
        { ret := Except.error ("task with id " ++ taskID ++ " not found")
          svc := s, world := w, launched := none } := by
      unfold AddURLs; simp only [hT]
    rw [h1, h2]
    exact ⟨rfl, [Event.Log "task not found"], rfl,
      fun e he => Or.inr ⟨_, List.mem_singleton.mp he⟩, by simp [Event.isNetworkIO]⟩
  | some task =>
    by_cases hS : task.Status = StatusAddLinks ∨ task.Status = StatusPending
    swap
    · have h1 : AddURLsTraced net s w taskID urls =
          ({ ret := Except.error
                ("the maximum number of links has been added to the task. The task is "
                  ++ task.Status.toString)
             svc := s, world := w, launched := none },
            [Event.Lock, Event.Log "the maximum number of links has been added to the task",
              Event.Unlock]) := by
        unfold AddURLsTraced; simp only [hT, hS, not_false_eq_true, if_true]
      have h2 : AddURLs net s w taskID urls =
          { ret := Except.error
              ("the maximum number of links has been added to the task. The task is "
                ++ task.Status.toString)
            svc := s, world := w, launched := none } := by
        unfold AddURLs; simp only [hT, hS, not_false_eq_true, if_true]
      rw [h1, h2]
      exact ⟨rfl, [Event.Log "the maximum number of links has been added to the task"], rfl,
        fun e he => Or.inr ⟨_, List.mem_singleton.mp he⟩, by simp [Event.isNetworkIO]⟩
    obtain ⟨a1, body, a2, a3, a4⟩ := addLoopTraced_spec net s.cfg urls w task {}
    have h1 : AddURLsTraced net s w taskID urls =
        ({ ret := Except.ok (addLoopTraced net s.cfg w task {} urls).1.2.2.1
           svc := { s with
             tasks := Function.update s.tasks taskID
               (some (addLoopTraced net s.cfg w task {} urls).1.2.1) }
           world := (addLoopTraced net s.cfg w task {} urls).1.1
           launched := (addLoopTraced net s.cfg w task {} urls).1.2.2.2 },
          Event.Lock :: (addLoopTraced net s.cfg w task {} urls).2) := by
      unfold AddURLsTraced; simp only [hT, hS, not_true_eq_false, if_false]
    rw [h1, AddURLs_of_open net s w taskID urls task hT hS, a1, a2]
    exact ⟨rfl, body, rfl, a3, a4⟩

/-- C12 (amended): each of the three operations, traced with its lock operations,
its log lines and its HEAD probes, returns what the operation returns, and under
the lock: `CreateTask` does no I/O when it admits the task and writes one log
line when it rejects; `GetStatusTask` does no I/O on a known id and writes one
log line on an unknown id; `AddURLs` does only HEAD probes of `checkURL` and log
lines, the probes at most one per submitted URL and in input order, and after
`Unlock` at most the launch of the pipeline follows. So an `AddURLs` call keeps
the lock free of network I/O exactly when it issues no probe. -/
theorem store_operations_lock_scope {W : Type} (net : Net W) (s : Service) (w : W)
    (taskID newID : String) (urls : List String) :
    ((CreateTaskTraced s newID).1 = CreateTask s newID ∧
        ((∃ r, (CreateTask s newID).1 = Except.ok r) →
          (CreateTaskTraced s newID).2 = [Event.Lock, Event.Unlock]) ∧
        ((∃ err, (CreateTask s newID).1 = Except.error err) →
          (CreateTaskTraced s newID).2 =
            [Event.Lock, Event.Log "Server busy. Too many active tasks", Event.Unlock])) ∧
      ((GetStatusTaskTraced s taskID).1 = GetStatusTask s taskID ∧
        ((∃ task, s.tasks taskID = some task) →
          (GetStatusTaskTraced s taskID).2 = [Event.Lock, Event.Unlock]) ∧
        (s.tasks taskID = none →
          (GetStatusTaskTraced s taskID).2 =
            [Event.Lock, Event.Log "task not found", Event.Unlock])) ∧
      ((AddURLsTraced net s w taskID urls).1 = AddURLs net s w taskID urls ∧
        ∃ body,
          (AddURLsTraced net s w taskID urls).2 =
            Event.Lock :: body ++ Event.Unlock ::
              ((AddURLs net s w taskID urls).launched.map
                (fun p => Event.Go p.1 p.2)).toList ∧
          (∀ e ∈ body, (∃ url, e = Event.Head url) ∨ ∃ msg, e = Event.Log msg) ∧
          (body.filter Event.isNetworkIO).Sublist (urls.map Event.Head) ∧
          (quietWhileLocked Event.isIO false (AddURLsTraced net s w taskID urls).2 = true ↔
            body = []) ∧
          (quietWhileLocked Event.isNetworkIO false (AddURLsTraced net s w taskID urls).2 = true ↔
            body.filter Event.isNetworkIO = [])) := by
  refine ⟨⟨CreateTaskTraced_fst s newID, ?_, ?_⟩, ⟨GetStatusTaskTraced_fst s taskID, ?_, ?_⟩, ?_⟩
  · rintro ⟨r, hr⟩
    unfold CreateTask at hr
    unfold CreateTaskTraced
    split
    · rename_i h; rw [if_pos h] at hr; cases hr
    · rfl
  · rintro ⟨err, hr⟩
    unfold CreateTask at hr
    unfold CreateTaskTraced
    split
    · rfl
    · rename_i h; rw [if_neg h] at hr; cases hr
  · rintro ⟨task, hT⟩
    unfold GetStatusTaskTraced
    rw [hT]
    simp only
    split <;> rfl
  · intro hT
    unfold GetStatusTaskTraced
    rw [hT]
  · obtain ⟨h1, body, h2, h3, h4⟩ := AddURLsTraced_spec net s w taskID urls
    refine ⟨h1, body, h2, h3, h4, ?_, ?_⟩
    · rw [h2, List.cons_append, quietWhileLocked, quietWhileLocked_body _ _ _ h3]
      simp only [quietWhileLocked_launch, and_true]
      constructor
      · intro h
        cases body with
        | nil => rfl
        | cons e rest =>
          have := h e (List.mem_cons_self _ _)
          rcases h3 e (List.mem_cons_self _ _) with ⟨u, he⟩ | ⟨m, he⟩ <;> rw [he] at this <;>
            simp [Event.isIO, Event.isNetworkIO, Event.isFileIO] at this
      · intro h e he
        rw [h] at he; cases he
    · rw [h2, List.cons_append, quietWhileLocked, quietWhileLocked_body _ _ _ h3]
      simp only [quietWhileLocked_launch, and_true, List.filter_eq_nil_iff,
        Bool.not_eq_true]

/-- C12 as stated fails. `AddURLs` on the pending task `t1` (quota 3, four URLs
submitted) issues its three HEAD probes while the lock is held; `CreateTask` on
a store that admits no task and `GetStatusTask` on an unknown id write their
log line to the standard output while the lock is held. -/
theorem lock_held_during_probes_and_log_writes :
    (AddURLsTraced demoNet demoSys1.svc [] "t1" ["u1", "u2", "u3", "u4"]).2 =
        [Event.Lock, Event.Head "u1", Event.Log "task status updated to add_links",
          Event.Head "u2", Event.Head "u3",
          Event.Log "the maximum number of links has been added to the task", Event.Unlock,
          Event.Go "t1" ["u1", "u2", "u3"]] ∧
      quietWhileLocked Event.isNetworkIO false
        (AddURLsTraced demoNet demoSys1.svc [] "t1" ["u1", "u2", "u3", "u4"]).2 = false ∧
      (CreateTaskTraced (NewService busyCfg) "t1").2 =
        [Event.Lock, Event.Log "Server busy. Too many active tasks", Event.Unlock] ∧
      quietWhileLocked Event.isFileIO false (CreateTaskTraced (NewService busyCfg) "t1").2
        = false ∧
      (GetStatusTaskTraced (NewService demoCfg) "t9").2 =
        [Event.Lock, Event.Log "task not found", Event.Unlock] ∧
      quietWhileLocked Event.isFileIO false (GetStatusTaskTraced (NewService demoCfg) "t9").2
        = false := by
  decide

end Downloader
